import Mathlib

/-!
Verification development for the ROI binary codec in `api/utils/roi.py`
(classes `ROIObject`, `ROIRect`, `ROIShape`, `ROIEncoder`, `ROIDecoder`).

The Python code is shallowly embedded:
* IEEE-754 binary32 values are represented by their 32-bit patterns (`F32`),
  since the codec only ever moves them between memory and big-endian bytes;
  a semantic interpretation `F32.toVal` into the rationals grounds the
  concrete constants used in examples and is used for the `min`/`max`
  comparisons of the bounding-box derivation.
* The output file written via seek/write is a `Buf`: a byte function plus the
  current file size (bytes never written read back as zero, matching the
  zero pad the encoder writes first and the zero fill POSIX gives gaps).
* `struct.pack`/`struct.unpack` with big-endian formats become explicit
  arithmetic on byte lists, with `struct.error` modelled as `ROIError.structError`
  (range violations on pack, short slices on unpack).
* Python exceptions raised by the codec are the constructors of `ROIError`.
-/

namespace Myconos

/-- IEEE-754 binary32 value represented by its bit pattern. -/
structure F32 where
  bits : Nat
  isLt : bits < 2 ^ 32

theorem F32.ext_bits : ∀ {a b : F32}, a.bits = b.bits → a = b
  | ⟨_, _⟩, ⟨_, _⟩, rfl => rfl

instance : DecidableEq F32 := fun a b =>
  decidable_of_iff (a.bits = b.bits) ⟨F32.ext_bits, fun h => h ▸ rfl⟩

/-- Rational value denoted by a binary32 bit pattern (finite interpretation;
exponent 255 patterns are given by the same normalised formula, they are never
produced by the claims considered here). -/
def F32.toVal (f : F32) : ℚ :=
  let s : ℚ := if f.bits / 2 ^ 31 = 1 then -1 else 1
  let e : Nat := f.bits / 2 ^ 23 % 2 ^ 8
  let m : Nat := f.bits % 2 ^ 23
  if e = 0 then s * ((m : ℚ) / 2 ^ 23) * (2 / 2 ^ 127)
  else s * (1 + (m : ℚ) / 2 ^ 23) * (2 ^ e / 2 ^ 127)

/-- Bit pattern of 0.0. -/
def f32zero : F32 := ⟨0, by norm_num⟩
/-- Bit pattern of 1.0. -/
def f32one : F32 := ⟨0x3F800000, by norm_num⟩
/-- Bit pattern of 2.0. -/
def f32two : F32 := ⟨0x40000000, by norm_num⟩
/-- Bit pattern of 3.0. -/
def f32three : F32 := ⟨0x40400000, by norm_num⟩
/-- Bit pattern of 4.0. -/
def f32four : F32 := ⟨0x40800000, by norm_num⟩
/-- Bit pattern of 5.0. -/
def f32five : F32 := ⟨0x40A00000, by norm_num⟩
/-- Bit pattern of 6.0. -/
def f32six : F32 := ⟨0x40C00000, by norm_num⟩

/-- Binary comparison step of a numpy reduction with `minimum`. -/
def fmin (a b : F32) : F32 := if a.toVal ≤ b.toVal then a else b

/-- Binary comparison step of a numpy reduction with `maximum`. -/
def fmax (a b : F32) : F32 := if b.toVal ≤ a.toVal then a else b

/-- Model of `numpy.ndarray.min` on a coordinate array (the empty case never
arises: numpy raises there, and every use below is guarded by nonemptiness). -/
def npMin : List F32 → F32
  | [] => f32zero
  | x :: xs => xs.foldl fmin x

/-- Model of `numpy.ndarray.max` on a coordinate array. -/
def npMax : List F32 → F32
  | [] => f32zero
  | x :: xs => xs.foldl fmax x

/-- Bounding box produced by `ROIShape.__init__` (roi.py lines 71-78): each
bound keeps the explicitly supplied value and otherwise defaults to
`x_coords.min()`, `x_coords.min()`, `x_coords.max()`, `y_coords.max()`
for top, left, bottom, right respectively — exactly as in the source,
including the asymmetric use of the two coordinate lists. -/
def shapeInitBounds (x_coords y_coords : List F32)
    (top left bottom right : Option F32) : F32 × F32 × F32 × F32 :=
  (top.getD (npMin x_coords), left.getD (npMin x_coords),
   bottom.getD (npMax x_coords), right.getD (npMax y_coords))

/-- Modelled from the claim wording for comparison: top and left from the
minimum of `xCoords`, bottom from the maximum of `xCoords`, right from the
maximum of `yCoords`. -/
def claimDerivedBox (x_coords y_coords : List F32) : F32 × F32 × F32 × F32 :=
  (npMin x_coords, npMin x_coords, npMax x_coords, npMax y_coords)

/-- Flat float array built by `ROIShape.get_shapeArray` (roi.py lines 80-89):
start from `[0.0]`, for every pair `(x, y)` append `y`, `x`, `1.0`, then pop
the last element and append `4.0`. -/
def get_shapeArray (x_coords y_coords : List F32) : List F32 :=
  let arr := (x_coords.zip y_coords).foldl
    (fun acc p => acc ++ [p.2, p.1, f32one]) [f32zero]
  arr.dropLast ++ [f32four]

/-- Coordinate recovery of `ROIShape.get_coords_from_shapeArray`
(roi.py lines 91-95): values at index 2 mod 3 are x, at index 1 mod 3 are y. -/
def get_coords_from_shapeArray (shapeArray : List F32) : List F32 × List F32 :=
  ((shapeArray.enum.filter (fun p => p.1 % 3 = 2)).map Prod.snd,
   (shapeArray.enum.filter (fun p => p.1 % 3 = 1)).map Prod.snd)

/-! ## Byte buffers

The encoder opens the output file, writes a 128-byte zero pad, then seeks to
absolute offsets and writes big-endian fields.  A `Buf` is the file content:
a total byte function together with the file size. -/

structure Buf where
  data : Nat → Nat
  size : Nat

/-- The 128-byte zero pad the encoder writes first (roi.py lines 186-188). -/
def Buf.zero128 : Buf := ⟨fun _ => 0, 128⟩

/-- Seek to `off` and write the bytes `bs` (extends the file when needed;
bytes of a gap read back as zero, which `data` already yields). -/
def Buf.write (b : Buf) (off : Nat) (bs : List Nat) : Buf :=
  ⟨fun i => if off ≤ i ∧ i < off + bs.length then bs.getD (i - off) 0 else b.data i,
   max b.size (off + bs.length)⟩

/-- File content as the byte string `self.data` the decoder reads. -/
def Buf.toBytes (b : Buf) : List Nat :=
  (List.range b.size).map b.data

/-- Read `n` consecutive bytes of the buffer starting at `off`. -/
def readN (b : Buf) (off n : Nat) : List Nat :=
  (List.range n).map (fun j => b.data (off + j))

/-! ## struct.pack / struct.unpack (big-endian) -/

/-- Errors raised by the codec, one constructor per raise site:
`formatError` is the `IOError` on magic mismatch, `invalidCompositeType` the
`Exception` of `_read_roi_shape`, `unsupportedVariant` the
`NotImplementedError` of the per-kind stubs, `structError` any
`struct.error` (pack range violation or short unpack slice), `keyError` the
dictionary lookup failure on an unrecognised type tag. -/
inductive ROIError
  | formatError
  | invalidCompositeType
  | unsupportedVariant (kind : String)
  | structError
  | keyError
deriving DecidableEq

instance {ε α : Type} [DecidableEq ε] [DecidableEq α] : DecidableEq (Except ε α) :=
  fun x y =>
    match x, y with
    | .ok a, .ok b => decidable_of_iff (a = b) (by simp)
    | .ok _, .error _ => isFalse (by simp)
    | .error _, .ok _ => isFalse (by simp)
    | .error e, .error f => decidable_of_iff (e = f) (by simp)

/-- Big-endian bytes of a signed 8-bit value. -/
def i8Bytes (v : Int) : List Nat := [((v % 256).toNat)]

/-- Big-endian bytes of a signed 16-bit value. -/
def i16Bytes (v : Int) : List Nat :=
  [((v % 65536).toNat) / 256, ((v % 65536).toNat) % 256]

/-- Big-endian bytes of a signed 32-bit value. -/
def i32Bytes (v : Int) : List Nat :=
  [((v % 4294967296).toNat) / 2 ^ 24, ((v % 4294967296).toNat) / 2 ^ 16 % 256,
   ((v % 4294967296).toNat) / 2 ^ 8 % 256, ((v % 4294967296).toNat) % 256]

/-- Big-endian bytes of a binary32 bit pattern. -/
def f32Bytes (f : F32) : List Nat :=
  [f.bits / 2 ^ 24, f.bits / 2 ^ 16 % 256, f.bits / 2 ^ 8 % 256, f.bits % 256]

/-- Model of `struct.pack` with format `>b` including its range check. -/
def packI8 (v : Int) : Except ROIError (List Nat) :=
  if -128 ≤ v ∧ v ≤ 127 then .ok (i8Bytes v) else .error .structError

/-- Model of `struct.pack` with format `>h` including its range check. -/
def packI16 (v : Int) : Except ROIError (List Nat) :=
  if -32768 ≤ v ∧ v ≤ 32767 then .ok (i16Bytes v) else .error .structError

/-- Model of `struct.pack` with format `>i` including its range check. -/
def packI32 (v : Int) : Except ROIError (List Nat) :=
  if -2147483648 ≤ v ∧ v ≤ 2147483647 then .ok (i32Bytes v) else .error .structError

/-- Value of a big-endian byte string. -/
def bytesToNat (bs : List Nat) : Nat := bs.foldl (fun a b => 256 * a + b) 0

/-- Model of `struct.unpack` of a signed big-endian field of width `w`
applied to a byte string of that width. -/
def unpackI (w : Nat) (bs : List Nat) : Int :=
  let u := bytesToNat bs
  if u < 2 ^ (8 * w - 1) then (u : Int) else (u : Int) - 2 ^ (8 * w)

/-- Model of `struct.unpack` of a big-endian `>f` field: the bit pattern. -/
def unpackF32 (bs : List Nat) : F32 :=
  ⟨bytesToNat bs % 2 ^ 32, Nat.mod_lt _ (by norm_num)⟩

/-- The bytes of the magic constant `b'Iout'`. -/
def magicBytes : List Nat := [73, 111, 117, 116]

/-! ## Names and paths

The encoder writes names with `bytes(name, 'utf-8')` packed by a `'{n}s'`
format where `n = len(name)` counts characters; the decoder never reads the
stored name back but derives it from the entry path via
`os.path.splitext(os.path.basename(path))[0]`. -/

/-- UTF-8 encoding of one character. -/
def utf8EncodeCharBytes (c : Char) : List Nat :=
  let n := c.toNat
  if n < 0x80 then [n]
  else if n < 0x800 then [0xC0 + n / 64, 0x80 + n % 64]
  else if n < 0x10000 then [0xE0 + n / 4096, 0x80 + n / 64 % 64, 0x80 + n % 64]
  else [0xF0 + n / 262144, 0x80 + n / 4096 % 64, 0x80 + n / 64 % 64, 0x80 + n % 64]

/-- UTF-8 encoding of a string, as `bytes(s, 'utf-8')`. -/
def utf8Bytes (s : String) : List Nat := s.data.flatMap utf8EncodeCharBytes

/-- Bytes written for the name field: `struct.pack('{n}s', utf8)` with
`n = len(name)` truncates or zero-pads the utf-8 bytes to `n` bytes. -/
def nameFieldBytes (name : String) : List Nat :=
  (utf8Bytes name).take name.length ++
    List.replicate (name.length - (utf8Bytes name).length) 0

/-- Fold step retaining the characters after the last path separator. -/
def basenameStep (acc : List Char) (c : Char) : List Char :=
  if c = '/' then [] else acc ++ [c]

/-- Model of `os.path.basename` on POSIX: the characters after the last slash. -/
def pyBasename (s : List Char) : List Char := s.foldl basenameStep []

/-- Index of the last dot of a name, if any. -/
def lastDotIdx (s : List Char) : Option Nat :=
  ((s.enum.filter (fun p => p.2 = '.')).map Prod.fst).getLast?

/-- Stem part of `os.path.splitext`: split at the last dot provided some
character strictly before it is not a dot (so dotfiles keep their name). -/
def splitextStem (s : List Char) : List Char :=
  match lastDotIdx s with
  | none => s
  | some i => if (s.take i).any (fun c => c ≠ '.') then s.take i else s

/-- Name the decoder assigns: `os.path.splitext(os.path.basename(path))[0]`. -/
def stem (s : String) : String := ⟨splitextStem (pyBasename s.data)⟩

/-- Names for which the path round trip is clean: nonempty, free of path
separators, not consisting of dots only, and short enough for the int32
`NAME_LENGTH` field. -/
def goodName (s : String) : Prop :=
  s ≠ "" ∧ '/' ∉ s.data ∧ (∃ c ∈ s.data, c ≠ '.') ∧ s.length ≤ 2147483647

instance : DecidablePred goodName := fun s => by
  unfold goodName; infer_instance

/-! ## ROI variant model -/

/-- The recognised-but-unimplemented ROI kinds: the encoder has a
`_write_roi_<kind>` stub raising `NotImplementedError` for each of them. -/
inductive UnsupKind
  | polygon | oval | line | freeline | polyline | no_roi | freehand
  | traced | angle | point
deriving DecidableEq

/-- Kind string as it appears in the stub's message. -/
def UnsupKind.kindName : UnsupKind → String
  | .polygon => "polygon"
  | .oval => "oval"
  | .line => "line"
  | .freeline => "freeline"
  | .polyline => "polyline"
  | .no_roi => "no roi"
  | .freehand => "freehand"
  | .traced => "traced"
  | .angle => "angle"
  | .point => "point"

/-- ROI objects as the codec consumes and produces them.  Bounds and position
of encodable ROIs are integers (`struct.pack` with an integer format rejects
non-integers); shape coordinates are binary32 values. -/
inductive ROI
  | rect (top left bottom right arc : Int) (name : String) (position : Int)
  | shape (x_coords y_coords : List F32) (top left bottom right : Int)
      (name : String) (position : Int)
  | unsupported (kind : UnsupKind)
deriving DecidableEq

/-- The `name` attribute used by the archive writer to build the entry path. -/
def ROI.name : ROI → String
  | .rect _ _ _ _ _ n _ => n
  | .shape _ _ _ _ _ _ n _ => n
  | .unsupported _ => ""

/-- Derived `width` property of `ROIObject` (right - left). -/
def ROI.width : ROI → Int
  | .rect _ l _ r _ _ _ => r - l
  | .shape _ _ _ l _ r _ _ => r - l
  | .unsupported _ => 0

/-- Derived `height` property of `ROIObject` (bottom - top). -/
def ROI.height : ROI → Int
  | .rect t _ b _ _ _ _ => b - t
  | .shape _ _ t _ b _ _ _ => b - t
  | .unsupported _ => 0

/-- Kind tag of a ROI object (`type` class attribute). -/
def ROI.kind : ROI → String
  | .rect .. => "rect"
  | .shape .. => "shape"
  | .unsupported k => k.kindName

/-- Bounding box of a ROI object. -/
def ROI.bounds : ROI → Int × Int × Int × Int
  | .rect t l b r _ _ _ => (t, l, b, r)
  | .shape _ _ t l b r _ _ => (t, l, b, r)
  | .unsupported _ => (0, 0, 0, 0)

/-- Position attribute of a ROI object. -/
def ROI.pos : ROI → Int
  | .rect _ _ _ _ _ _ p => p
  | .shape _ _ _ _ _ _ _ p => p
  | .unsupported _ => 0

/-- Coordinate payload of a ROI object (empty for rectangles). -/
def ROI.coords : ROI → List F32 × List F32
  | .shape xs ys _ _ _ _ _ _ => (xs, ys)
  | _ => ([], [])

/-- What survives one encode/decode round trip: everything except the corner
arc of a rectangle, which the encoder never writes and the decoder reads as 0. -/
def rtNorm : ROI → ROI
  | .rect t l b r _ n p => .rect t l b r 0 n p
  | r => r

/-! ## Encoder

`ROIEncoder.write` (roi.py lines 182-196) opens the file, writes a 128-byte
zero pad, then the magic and the version, and dispatches on the kind tag.
The running state of one call is the file content plus the first exception
raised, if any: once an exception is raised nothing further is written. -/

/-- Encoder state: file content so far, plus the pending exception if one
was raised (the source writes straight to the open file, so the bytes
written before a failure stay on disk). -/
def WState := Buf × Option ROIError

/-- Perform one `_write_var` style write: skip if an exception is pending,
record the exception if packing fails, otherwise write the packed bytes. -/
def wput (st : WState) (off : Nat) (r : Except ROIError (List Nat)) : WState :=
  match st with
  | (b, some e) => (b, some e)
  | (b, none) =>
    match r with
    | .ok bs => (b.write off bs, none)
    | .error e => (b, some e)

/-- Raise an exception (keeping the first one). -/
def wfail (st : WState) (e : ROIError) : WState :=
  match st with
  | (b, some e0) => (b, some e0)
  | (b, none) => (b, some e)

/-- The float-array loop of `_write_roi_shape`: consecutive `>f` writes
starting at `base`, advancing by 4 (packing a binary32 bit pattern with
`>f` never raises, so the loop is a pure buffer transformation). -/
def writeFloats (b : Buf) (base : Nat) : List F32 → Buf
  | [] => b
  | f :: fs => writeFloats (b.write base (f32Bytes f)) (base + 4) fs

/-- Run the float loop unless an exception is already pending. -/
def wfloats (st : WState) (base : Nat) (fs : List F32) : WState :=
  match st with
  | (b, none) => (writeFloats b base fs, none)
  | (b, some e) => (b, some e)

/-- Model of `ROIEncoder._write_name` with the running header-2 offset
`h2off`: writes `NAME_OFFSET` and `NAME_LENGTH` into header 2 and then the
name bytes at `header2_size + h2off`. -/
def writeName (st : WState) (h2off : Nat) (name : String) : WState :=
  let off := 64 + h2off
  let st := wput st (h2off + 16) (packI32 off)
  let st := wput st (h2off + 20) (packI32 name.length)
  wput st off (.ok (nameFieldBytes name))

/-- Model of `ROIEncoder.write` for one ROI: pad, magic, version, then the
kind-specific writer (`_write_roi_rect`, `_write_roi_shape`, or an
unimplemented-kind stub raising `NotImplementedError`). -/
def writeRoi (roi : ROI) : WState :=
  let st : WState := (Buf.zero128, none)
  let st := wput st 0 (.ok magicBytes)       -- MAGIC 'Iout' at 0
  let st := wput st 4 (packI16 225)          -- VERSION_OFFSET at 4
  match roi with
  | .rect top left bottom right _arc name position =>
    let st := wput st 6 (packI8 1)           -- TYPE, 'rect' tag
    let st := wput st 8 (packI16 top)
    let st := wput st 10 (packI16 left)
    let st := wput st 12 (packI16 bottom)
    let st := wput st 14 (packI16 right)
    let st := wput st 56 (packI32 position)
    let st := wput st 60 (packI32 64)        -- HEADER2_OFFSET after header 1
    writeName st 64 name
  | .shape x_coords y_coords top left bottom right name position =>
    let shapeArray := get_shapeArray x_coords y_coords
    let st := wput st 6 (packI8 1)           -- composite shapes carry the rect tag
    let st := wput st 8 (packI16 top)
    let st := wput st 10 (packI16 left)
    let st := wput st 12 (packI16 bottom)
    let st := wput st 14 (packI16 right)
    let st := wput st 56 (packI32 position)
    let st := wput st 36 (packI32 shapeArray.length)  -- SHAPE_ROI_SIZE
    let st := wfloats st 64 shapeArray
    let h2 := 64 + 4 * shapeArray.length
    let st := wput st 60 (packI32 h2)        -- HEADER2_OFFSET past the array
    writeName st h2 name
  | .unsupported k =>
    wfail st (.unsupportedVariant k.kindName)

/-- Model of `ROIEncoder.write_zip`: for each ROI in order, encode it into
the temp file `dir//<name>.roi` and add that file as an archive entry.  A
raised exception aborts the loop; the archive is then never closed, so no
entry list materialises. -/
def write_zip (dir : String) : List ROI → List (String × Buf) × Option ROIError
  | [] => ([], none)
  | roi :: rest =>
    let path := dir ++ "//" ++ roi.name ++ ".roi"
    match writeRoi roi with
    | (b, none) =>
      let (es, e) := write_zip dir rest
      ((path, b) :: es, e)
    | (_, some e) => ([], some e)

/-! ## Decoder -/

/-- Model of a Python slice `l[lo:hi]` with clamping and negative indices . -/
def pySlice (l : List Nat) (lo hi : Int) : List Nat :=
  let L : Int := l.length
  let a := (if lo < 0 then max 0 (L + lo) else min lo L).toNat
  let b := (if hi < 0 then max 0 (L + hi) else min hi L).toNat
  (l.drop a).take (b - a)

/-- Model of `ROIDecoder._get_var`: slice `n` bytes at `off` and unpack;
`struct.unpack` raises `struct.error` when the slice is short. -/
def getVar (l : List Nat) (off : Int) (n : Nat) : Except ROIError (List Nat) :=
  let s := pySlice l off (off + n)
  if s.length = n then .ok s else .error .structError

/-- Read a signed big-endian integer field of width `w` at offset `off`. -/
def readI (l : List Nat) (off : Int) (w : Nat) : Except ROIError Int := do
  let bs ← getVar l off w
  pure (unpackI w bs)

/-- Read a big-endian binary32 field at offset `off`. -/
def readF (l : List Nat) (off : Int) : Except ROIError F32 := do
  let bs ← getVar l off 4
  pure (unpackF32 bs)

/-- The header dictionary as populated by `ROIDecoder.read_header`:
the listed header-1 fields, every header-2 field, and the three values the
source then overwrites with zero. -/
structure Header where
  VERSION_OFFSET : Int
  TYPE : Int
  SUBTYPE : Int
  TOP : Int
  LEFT : Int
  BOTTOM : Int
  RIGHT : Int
  N_COORDINATES : Int
  STROKE_WIDTH : Int
  SHAPE_ROI_SIZE : Int
  STROKE_COLOR : Int
  FILL_COLOR : Int
  OPTIONS : Int
  POSITION : Int
  HEADER2_OFFSET : Int
  C_POSITION : Int
  Z_POSITION : Int
  T_POSITION : Int
  NAME_OFFSET : Int
  NAME_LENGTH : Int
  OVERLAY_LABEL_COLOR : Int
  OVERLAY_FONT_SIZE : Int
  AVAILABLE_BYTE1 : Int
  IMAGE_OPACITY : Int
  IMAGE_SIZE : Int
  FLOAT_STROKE_WIDTH : F32
  ROI_PROPS_OFFSET : Int
  ROI_PROPS_LENGTH : Int
deriving DecidableEq

/-- Model of `ROIDecoder.read_header` (roi.py lines 330-346): check the magic,
read the listed header-1 fields, then all header-2 fields relative to
`HEADER2_OFFSET`, then force `OVERLAY_LABEL_COLOR`, `OVERLAY_FONT_SIZE` and
`IMAGE_OPACITY` to zero.  The duplicate `SUBTYPE` entry of the source's read
list repeats an identical read and is dropped. -/
def readHeader (l : List Nat) : Except ROIError Header := do
  let magic ← getVar l 0 4
  if magic ≠ magicBytes then
    Except.error .formatError   -- IOError('Invalid ROI file, magic number mismatch')
  else do
    let version ← readI l 4 2
    let ty ← readI l 6 1
    let subty ← readI l 48 2
    let top ← readI l 8 2
    let left ← readI l 10 2
    let bottom ← readI l 12 2
    let right ← readI l 14 2
    let nCoords ← readI l 16 2
    let strokeW ← readI l 34 2
    let shapeSz ← readI l 36 4
    let strokeC ← readI l 40 4
    let fillC ← readI l 44 4
    let opts ← readI l 50 2
    let position ← readI l 56 4
    let h2 ← readI l 60 4
    let cPos ← readI l (h2 + 4) 4
    let zPos ← readI l (h2 + 8) 4
    let tPos ← readI l (h2 + 12) 4
    let nameOff ← readI l (h2 + 16) 4
    let nameLen ← readI l (h2 + 20) 4
    let _olc ← readI l (h2 + 24) 4
    let _ofs ← readI l (h2 + 28) 2
    let avail ← readI l (h2 + 30) 1
    let _opac ← readI l (h2 + 31) 1
    let imgSz ← readI l (h2 + 32) 4
    let fsw ← readF l (h2 + 36)
    let propsOff ← readI l (h2 + 40) 4
    let propsLen ← readI l (h2 + 44) 4
    pure { VERSION_OFFSET := version, TYPE := ty, SUBTYPE := subty,
           TOP := top, LEFT := left, BOTTOM := bottom, RIGHT := right,
           N_COORDINATES := nCoords, STROKE_WIDTH := strokeW,
           SHAPE_ROI_SIZE := shapeSz, STROKE_COLOR := strokeC,
           FILL_COLOR := fillC, OPTIONS := opts, POSITION := position,
           HEADER2_OFFSET := h2, C_POSITION := cPos, Z_POSITION := zPos,
           T_POSITION := tPos, NAME_OFFSET := nameOff, NAME_LENGTH := nameLen,
           OVERLAY_LABEL_COLOR := 0, OVERLAY_FONT_SIZE := 0,
           AVAILABLE_BYTE1 := avail, IMAGE_OPACITY := 0, IMAGE_SIZE := imgSz,
           FLOAT_STROKE_WIDTH := fsw, ROI_PROPS_OFFSET := propsOff,
           ROI_PROPS_LENGTH := propsLen }

/-- Model of `ROIDecoder._read_roi_rect`: re-read the arc size, bounds and
position from the buffer and build a `ROIRect`. -/
def readRoiRect (l : List Nat) (name : String) : Except ROIError ROI := do
  let arc ← readI l 54 2      -- ROUNDED_RECT_ARC_SIZE
  let top ← readI l 8 2
  let left ← readI l 10 2
  let bottom ← readI l 12 2
  let right ← readI l 14 2
  let position ← readI l 56 4
  pure (.rect top left bottom right arc name position)

/-- The float-reading loop of `_read_roi_shape`: `n` consecutive `>f` reads
starting at `base`. -/
def readFloats (l : List Nat) (base : Int) : Nat → Except ROIError (List F32)
  | 0 => pure []
  | n + 1 => do
    let f ← readF l base
    let fs ← readFloats l (base + 4) n
    pure (f :: fs)

/-- Model of `ROIDecoder._read_roi_shape` (roi.py lines 362-379): composite
shapes must carry the rect tag, then `SHAPE_ROI_SIZE` floats are read from
offset 64 and split into coordinates. -/
def readRoiShape (l : List Nat) (h : Header) (name : String) :
    Except ROIError ROI := do
  if h.TYPE ≠ 1 then
    Except.error .invalidCompositeType   -- Exception("Invalid composite ROI type")
  else do
    let shapeArray ← readFloats l 64 h.SHAPE_ROI_SIZE.toNat
    let xy := get_coords_from_shapeArray shapeArray
    pure (.shape xy.1 xy.2 h.TOP h.LEFT h.BOTTOM h.RIGHT name h.POSITION)

/-- The `_roi_types` dictionary: type tag to kind string (tag 8 maps to the
source's literal string "traces"). -/
def roiTypeName : Int → Option String
  | 0 => some "polygon"
  | 1 => some "rect"
  | 2 => some "oval"
  | 3 => some "line"
  | 4 => some "freeline"
  | 5 => some "polyline"
  | 6 => some "no_roi"
  | 7 => some "freehand"
  | 8 => some "traces"
  | 9 => some "angle"
  | 10 => some "point"
  | _ => none

/-- Model of `ROIDecoder.read` on the bytes of one file or archive entry:
derive the name from the path stem, read the header, and dispatch — the
composite branch whenever `SHAPE_ROI_SIZE > 0`, otherwise by type tag, where
every tag other than the rect tag reaches a `NotImplementedError` stub (an
unrecognised tag raises `KeyError` from the dictionary lookup). -/
def read (l : List Nat) (path : String) : Except ROIError ROI := do
  let name := stem path
  let h ← readHeader l
  if h.SHAPE_ROI_SIZE > 0 then
    readRoiShape l h name
  else
    match roiTypeName h.TYPE with
    | none => Except.error .keyError
    | some k =>
      if k = "rect" then readRoiRect l name
      else Except.error (.unsupportedVariant k)

/-- Bytes `zipfile` serves for an entry name: `ZipFile._RealGetContents`
fills `NameToInfo[x.filename] = x` per central-directory entry in order, so
when several entries share a name the last one wins; `zf.open(name)` for a
string goes through `getinfo`, i.e. this dictionary (`KeyError` when the
name is absent). -/
def zipLookup (entries : List (String × Buf)) (n : String) : Option Buf :=
  entries.foldl (fun acc e => if e.1 = n then some e.2 else acc) none

/-- Model of `ROIDecoder.read_zip`: for each name in `namelist()` (all
entries in archive order, duplicates included), open that NAME via the
`NameToInfo` dictionary and decode the bytes it resolves to; the ROI's name
comes from the entry path. -/
def read_zip (entries : List (String × Buf)) : Except ROIError (List ROI) :=
  entries.mapM (fun e =>
    match zipLookup entries e.1 with
    | some bf => read bf.toBytes e.1
    | none => .error .keyError)

/-! ## Monad reductions for Except -/

theorem bindOk {ε α β : Type} (a : α) (f : α → Except ε β) :
    Bind.bind (Except.ok a) f = f a := rfl

theorem bindErr {ε α β : Type} (e : ε) (f : α → Except ε β) :
    Bind.bind (Except.error e : Except ε α) f = Except.error e := rfl

theorem pureOk {ε α : Type} (a : α) :
    (Pure.pure a : Except ε α) = Except.ok a := rfl

/-! ## Buffer read/write lemmas -/

theorem Buf.ext_of (a b : Buf) (h1 : ∀ i, a.data i = b.data i)
    (h2 : a.size = b.size) : a = b := by
  cases a; cases b
  simp only [Buf.mk.injEq]
  exact ⟨funext h1, h2⟩

theorem Buf.size_write (b : Buf) (off : Nat) (bs : List Nat) :
    (b.write off bs).size = max b.size (off + bs.length) := rfl

theorem Buf.size_zero128 : Buf.zero128.size = 128 := rfl

theorem getD_range_map {α : Type} (bs : List α) (d : α) (n : Nat)
    (h : bs.length = n) : (List.range n).map (fun j => bs.getD j d) = bs := by
  subst h
  apply List.ext_getElem
  · simp
  · intro i h1 h2
    simp [List.getD_eq_getElem?_getD, List.getElem?_eq_getElem h2]

theorem readN_write_of_le (b : Buf) (off : Nat) (bs : List Nat) (off' n : Nat)
    (h : off' + n ≤ off) :
    readN (b.write off bs) off' n = readN b off' n := by
  unfold readN Buf.write
  apply List.map_congr_left
  intro j hj
  simp only [List.mem_range] at hj
  have : ¬ (off ≤ off' + j ∧ off' + j < off + bs.length) := by omega
  simp [this]

theorem readN_write_of_ge (b : Buf) (off : Nat) (bs : List Nat) (off' n : Nat)
    (h : off + bs.length ≤ off') :
    readN (b.write off bs) off' n = readN b off' n := by
  unfold readN Buf.write
  apply List.map_congr_left
  intro j hj
  have : ¬ (off ≤ off' + j ∧ off' + j < off + bs.length) := by omega
  simp [this]

theorem readN_write_self (b : Buf) (off : Nat) (bs : List Nat) (n : Nat)
    (h : bs.length = n) : readN (b.write off bs) off n = bs := by
  unfold readN Buf.write
  have : ∀ j ∈ List.range n,
      (fun j => if off ≤ off + j ∧ off + j < off + bs.length then
        bs.getD (off + j - off) 0 else b.data (off + j)) j =
      (fun j => bs.getD j 0) j := by
    intro j hj
    simp only [List.mem_range] at hj
    have h1 : off ≤ off + j ∧ off + j < off + bs.length := by omega
    simp [h1]
  rw [List.map_congr_left this, getD_range_map _ _ _ h]

theorem readN_zero128 (off n : Nat) :
    readN Buf.zero128 off n = List.replicate n 0 := by
  unfold readN Buf.zero128
  simp [List.map_const]

theorem length_i8Bytes (v : Int) : (i8Bytes v).length = 1 := rfl

theorem length_i16Bytes (v : Int) : (i16Bytes v).length = 2 := rfl

theorem length_i32Bytes (v : Int) : (i32Bytes v).length = 4 := rfl

theorem length_f32Bytes (f : F32) : (f32Bytes f).length = 4 := rfl

theorem length_magicBytes : magicBytes.length = 4 := rfl

theorem length_nameFieldBytes (s : String) :
    (nameFieldBytes s).length = s.length := by
  unfold nameFieldBytes
  simp only [List.length_append, List.length_take, List.length_replicate]
  omega

theorem readN_write_i8_of_ge (b : Buf) (off : Nat) (v : Int) (off' n : Nat)
    (h : off + 1 ≤ off') :
    readN (b.write off (i8Bytes v)) off' n = readN b off' n :=
  readN_write_of_ge _ _ _ _ _ (by rw [length_i8Bytes]; omega)

theorem readN_write_i16_of_ge (b : Buf) (off : Nat) (v : Int) (off' n : Nat)
    (h : off + 2 ≤ off') :
    readN (b.write off (i16Bytes v)) off' n = readN b off' n :=
  readN_write_of_ge _ _ _ _ _ (by rw [length_i16Bytes]; omega)

theorem readN_write_i32_of_ge (b : Buf) (off : Nat) (v : Int) (off' n : Nat)
    (h : off + 4 ≤ off') :
    readN (b.write off (i32Bytes v)) off' n = readN b off' n :=
  readN_write_of_ge _ _ _ _ _ (by rw [length_i32Bytes]; omega)

theorem readN_write_magic_of_ge (b : Buf) (off : Nat) (off' n : Nat)
    (h : off + 4 ≤ off') :
    readN (b.write off magicBytes) off' n = readN b off' n :=
  readN_write_of_ge _ _ _ _ _ (by rw [length_magicBytes]; omega)

theorem readN_write_self_i8 (b : Buf) (off : Nat) (v : Int) :
    readN (b.write off (i8Bytes v)) off 1 = i8Bytes v :=
  readN_write_self _ _ _ _ (length_i8Bytes v)

theorem readN_write_self_i16 (b : Buf) (off : Nat) (v : Int) :
    readN (b.write off (i16Bytes v)) off 2 = i16Bytes v :=
  readN_write_self _ _ _ _ (length_i16Bytes v)

theorem readN_write_self_i32 (b : Buf) (off : Nat) (v : Int) :
    readN (b.write off (i32Bytes v)) off 4 = i32Bytes v :=
  readN_write_self _ _ _ _ (length_i32Bytes v)

theorem readN_write_self_f32 (b : Buf) (off : Nat) (f : F32) :
    readN (b.write off (f32Bytes f)) off 4 = f32Bytes f :=
  readN_write_self _ _ _ _ (length_f32Bytes f)

theorem readN_write_self_magic (b : Buf) :
    readN (b.write 0 magicBytes) 0 4 = magicBytes :=
  readN_write_self _ _ _ _ length_magicBytes

/-! ## Bridging the decoder's sliced reads to buffer reads -/

theorem length_toBytes (b : Buf) : b.toBytes.length = b.size := by
  unfold Buf.toBytes
  simp

theorem getVar_toBytes (b : Buf) (off : Int) (m n : Nat) (hoff : off = (m : Int))
    (h1 : m + n ≤ b.size) : getVar b.toBytes off n = .ok (readN b m n) := by
  subst hoff
  unfold getVar pySlice
  have hL : (b.toBytes.length : Int) = (b.size : Int) := by
    rw [length_toBytes]
  have hsl : (b.toBytes.drop m).take n = readN b m n := by
    apply List.ext_getElem
    · simp [length_toBytes, readN]
      omega
    · intro i hi1 hi2
      have him : m + i < b.size := by
        simp [length_toBytes] at hi1
        omega
      simp [Buf.toBytes, readN, List.getElem_drop, List.getElem_take,
        List.getElem_range, him]
  have h2 : ¬ ((m : Int) < 0) := by omega
  have h3 : ¬ ((m : Int) + n < 0) := by omega
  simp only [hL, h2, if_false, h3]
  have e1 : (min (m : Int) (b.size : Int)).toNat = m := by omega
  have e2 : (min ((m : Int) + n) (b.size : Int)).toNat = m + n := by omega
  rw [e1, e2]
  have e3 : m + n - m = n := by omega
  rw [e3, hsl]
  have : (readN b m n).length = n := by simp [readN]
  simp [this]

/-! ## pack/unpack round trips -/

theorem unpackI_i8Bytes (v : Int) (h1 : -128 ≤ v) (h2 : v ≤ 127) :
    unpackI 1 (i8Bytes v) = v := by
  unfold unpackI i8Bytes bytesToNat
  simp only [List.foldl]
  omega

theorem unpackI_i16Bytes (v : Int) (h1 : -32768 ≤ v) (h2 : v ≤ 32767) :
    unpackI 2 (i16Bytes v) = v := by
  unfold unpackI i16Bytes bytesToNat
  simp only [List.foldl]
  omega

theorem unpackI_i32Bytes (v : Int) (h1 : -2147483648 ≤ v) (h2 : v ≤ 2147483647) :
    unpackI 4 (i32Bytes v) = v := by
  unfold unpackI i32Bytes bytesToNat
  simp only [List.foldl]
  omega

theorem unpackF32_f32Bytes (f : F32) : unpackF32 (f32Bytes f) = f := by
  apply F32.ext_bits
  unfold unpackF32 f32Bytes bytesToNat
  simp only [List.foldl]
  have := f.isLt
  omega

theorem unpackI1_zeros : unpackI 1 (List.replicate 1 0) = 0 := by decide

theorem unpackI2_zeros : unpackI 2 (List.replicate 2 0) = 0 := by decide

theorem unpackI4_zeros : unpackI 4 (List.replicate 4 0) = 0 := by decide

theorem unpackF32_zeros : unpackF32 (List.replicate 4 0) = f32zero := by
  apply F32.ext_bits
  decide

theorem packI8_ok (v : Int) (h1 : -128 ≤ v) (h2 : v ≤ 127) :
    packI8 v = .ok (i8Bytes v) := by
  unfold packI8
  simp only [if_pos (And.intro h1 h2)]

theorem packI16_ok (v : Int) (h1 : -32768 ≤ v) (h2 : v ≤ 32767) :
    packI16 v = .ok (i16Bytes v) := by
  unfold packI16
  simp only [if_pos (And.intro h1 h2)]

theorem packI32_ok (v : Int) (h1 : -2147483648 ≤ v) (h2 : v ≤ 2147483647) :
    packI32 v = .ok (i32Bytes v) := by
  unfold packI32
  simp only [if_pos (And.intro h1 h2)]

/-! ## Shape-array structure -/

/-- The three floats emitted per coordinate pair: y, x, then the 1.0 flag. -/
def tri (p : F32 × F32) : List F32 := [p.2, p.1, f32one]

theorem shapeArray_foldl (ps : List (F32 × F32)) (init : List F32) :
    ps.foldl (fun acc p => acc ++ [p.2, p.1, f32one]) init =
      init ++ ps.flatMap tri := by
  induction ps generalizing init with
  | nil => simp
  | cons p ps ih =>
    simp only [List.foldl_cons, List.flatMap_cons, ih, tri, List.append_assoc]

theorem length_flatMap_tri (ps : List (F32 × F32)) :
    (ps.flatMap tri).length = 3 * ps.length := by
  induction ps with
  | nil => rfl
  | cons p ps ih => simp [tri, ih]; omega

theorem get_shapeArray_eq (xs ys : List F32) :
    get_shapeArray xs ys =
      (f32zero :: (xs.zip ys).flatMap tri).dropLast ++ [f32four] := by
  unfold get_shapeArray
  rw [shapeArray_foldl]
  rfl

theorem length_get_shapeArray (xs ys : List F32) (h : xs.length = ys.length)
    (h1 : 1 ≤ xs.length) :
    (get_shapeArray xs ys).length = 3 * xs.length + 1 := by
  rw [get_shapeArray_eq]
  have hz : (xs.zip ys).length = xs.length := by
    rw [List.length_zip]
    omega
  simp only [List.length_append, List.length_dropLast, List.length_cons,
    length_flatMap_tri, hz, List.length_nil]
  omega

/-- Extraction of the x entries from an enumerated list (index 2 mod 3). -/
def exX (l : List (Nat × F32)) : List F32 :=
  (l.filter (fun p => p.1 % 3 = 2)).map Prod.snd

/-- Extraction of the y entries from an enumerated list (index 1 mod 3). -/
def exY (l : List (Nat × F32)) : List F32 :=
  (l.filter (fun p => p.1 % 3 = 1)).map Prod.snd

theorem coords_eq_ex (a : List F32) :
    get_coords_from_shapeArray a = (exX a.enum, exY a.enum) := rfl

theorem exX_append (l1 l2 : List (Nat × F32)) :
    exX (l1 ++ l2) = exX l1 ++ exX l2 := by
  simp [exX]

theorem exY_append (l1 l2 : List (Nat × F32)) :
    exY (l1 ++ l2) = exY l1 ++ exY l2 := by
  simp [exY]

theorem exX_triples (ps : List (F32 × F32)) (i : Nat) (h : i % 3 = 1) :
    exX (List.enumFrom i (ps.flatMap tri)) = ps.map Prod.fst := by
  induction ps generalizing i with
  | nil => rfl
  | cons p ps ih =>
    have h0 : ¬ (i % 3 = 2) := by omega
    have h1 : (i + 1) % 3 = 2 := by omega
    have h2 : ¬ ((i + 1 + 1) % 3 = 2) := by omega
    have h3 : (i + 1 + 1 + 1) % 3 = 1 := by omega
    simp only [List.flatMap_cons, tri, List.cons_append, List.nil_append,
      List.enumFrom_cons, exX, List.filter_cons, h0, h1, h2,
      decide_eq_true_eq, decide_False, if_false, if_true]
    simp only [exX] at ih
    simp [ih _ h3, h0, h1, h2, List.map_cons]

theorem exY_triples (ps : List (F32 × F32)) (i : Nat) (h : i % 3 = 1) :
    exY (List.enumFrom i (ps.flatMap tri)) = ps.map Prod.snd := by
  induction ps generalizing i with
  | nil => rfl
  | cons p ps ih =>
    have h0 : i % 3 = 1 := h
    have h1 : ¬ ((i + 1) % 3 = 1) := by omega
    have h2 : ¬ ((i + 1 + 1) % 3 = 1) := by omega
    have h3 : (i + 1 + 1 + 1) % 3 = 1 := by omega
    simp only [List.flatMap_cons, tri, List.cons_append, List.nil_append,
      List.enumFrom_cons, exY, List.filter_cons, h0, h1, h2,
      decide_eq_true_eq, decide_False, if_false, if_true]
    simp only [exY] at ih
    simp [ih _ h3, h0, h1, h2, List.map_cons]

theorem coords_roundtrip (xs ys : List F32) (h : xs.length = ys.length)
    (h1 : 1 ≤ xs.length) :
    get_coords_from_shapeArray (get_shapeArray xs ys) = (xs, ys) := by
  have hz : (xs.zip ys).length = xs.length := by
    rw [List.length_zip]; omega
  have hzne : xs.zip ys ≠ [] := by
    intro hc
    rw [hc] at hz
    simp at hz
    omega
  -- decompose the zip into its initial part and its last pair
  obtain ⟨ps, pn, hsplit⟩ : ∃ ps pn, xs.zip ys = ps ++ [pn] :=
    ⟨(xs.zip ys).dropLast, (xs.zip ys).getLast hzne,
      (List.dropLast_append_getLast hzne).symm⟩
  have harr : get_shapeArray xs ys =
      f32zero :: (ps.flatMap tri ++ [pn.2, pn.1, f32four]) := by
    rw [get_shapeArray_eq, hsplit]
    have : (ps ++ [pn]).flatMap tri = ps.flatMap tri ++ [pn.2, pn.1, f32one] := by
      simp [tri]
    rw [this]
    have : ps.flatMap tri ++ [pn.2, pn.1, f32one] =
        (ps.flatMap tri ++ [pn.2, pn.1]) ++ [f32one] := by
      simp
    rw [this, List.dropLast_cons_of_ne_nil (by simp), List.dropLast_concat]
    simp
  rw [harr, coords_eq_ex]
  have hps : ps ++ [pn] = xs.zip ys := hsplit.symm
  have henum : (f32zero :: (ps.flatMap tri ++ [pn.2, pn.1, f32four])).enum =
      (0, f32zero) :: (List.enumFrom 1 (ps.flatMap tri) ++
        List.enumFrom (1 + 3 * ps.length) [pn.2, pn.1, f32four]) := by
    rw [List.enum_cons, List.enumFrom_append, length_flatMap_tri]
  have hmod : (1 + 3 * ps.length) % 3 = 1 := by omega
  have htail3 : List.enumFrom (1 + 3 * ps.length) [pn.2, pn.1, f32four] =
      [(1 + 3 * ps.length, pn.2), (1 + 3 * ps.length + 1, pn.1),
       (1 + 3 * ps.length + 2, f32four)] := by
    simp [List.enumFrom]
  have hx : exX (f32zero :: (ps.flatMap tri ++ [pn.2, pn.1, f32four])).enum = xs := by
    rw [henum]
    have h00 : ¬ ((0 : Nat) % 3 = 2) := by omega
    have ha : ¬ ((1 + 3 * ps.length) % 3 = 2) := by omega
    have hb : (1 + 3 * ps.length + 1) % 3 = 2 := by omega
    have hc : ¬ ((1 + 3 * ps.length + 2) % 3 = 2) := by omega
    have : exX ((0, f32zero) :: (List.enumFrom 1 (ps.flatMap tri) ++
        List.enumFrom (1 + 3 * ps.length) [pn.2, pn.1, f32four])) =
        exX (List.enumFrom 1 (ps.flatMap tri)) ++
          exX (List.enumFrom (1 + 3 * ps.length) [pn.2, pn.1, f32four]) := by
      unfold exX
      simp [List.filter_cons, h00]
    rw [this, exX_triples ps 1 (by omega), htail3]
    unfold exX
    simp only [List.filter_cons, ha, hb, hc, decide_eq_true_eq, if_false,
      if_true, List.filter_nil]
    have : (ps.map Prod.fst) ++ [pn.1] = (ps ++ [pn]).map Prod.fst := by
      simp
    simp only [List.map_cons, List.map_nil]
    rw [this, hps, List.map_fst_zip xs ys (by omega)]
  have hy : exY (f32zero :: (ps.flatMap tri ++ [pn.2, pn.1, f32four])).enum = ys := by
    rw [henum]
    have h00 : ¬ ((0 : Nat) % 3 = 1) := by omega
    have ha : (1 + 3 * ps.length) % 3 = 1 := hmod
    have hb : ¬ ((1 + 3 * ps.length + 1) % 3 = 1) := by omega
    have hc : ¬ ((1 + 3 * ps.length + 2) % 3 = 1) := by omega
    have : exY ((0, f32zero) :: (List.enumFrom 1 (ps.flatMap tri) ++
        List.enumFrom (1 + 3 * ps.length) [pn.2, pn.1, f32four])) =
        exY (List.enumFrom 1 (ps.flatMap tri)) ++
          exY (List.enumFrom (1 + 3 * ps.length) [pn.2, pn.1, f32four]) := by
      unfold exY
      simp [List.filter_cons, h00]
    rw [this, exY_triples ps 1 (by omega), htail3]
    unfold exY
    simp only [List.filter_cons, ha, hb, hc, decide_eq_true_eq, if_false,
      if_true, List.filter_nil]
    have : (ps.map Prod.snd) ++ [pn.2] = (ps ++ [pn]).map Prod.snd := by
      simp
    simp only [List.map_cons, List.map_nil]
    rw [this, hps, List.map_snd_zip xs ys (by omega)]
  rw [hx, hy]

/-! ## The float-writing loop -/

theorem size_writeFloats (b : Buf) (base : Nat) (fs : List F32)
    (h : base ≤ b.size) :
    (writeFloats b base fs).size = max b.size (base + 4 * fs.length) := by
  induction fs generalizing b base with
  | nil =>
    simp only [writeFloats, List.length_nil]
    omega
  | cons f fs ih =>
    simp only [writeFloats, List.length_cons]
    rw [ih (b.write base (f32Bytes f)) (base + 4)
      (by rw [Buf.size_write, length_f32Bytes]; omega)]
    rw [Buf.size_write, length_f32Bytes]
    omega

theorem readN_writeFloats_of_le (b : Buf) (base : Nat) (fs : List F32)
    (off n : Nat) (h : off + n ≤ base) :
    readN (writeFloats b base fs) off n = readN b off n := by
  induction fs generalizing b base with
  | nil => rfl
  | cons f fs ih =>
    simp only [writeFloats]
    rw [ih _ _ (by omega), readN_write_of_le _ _ _ _ _ (by omega)]

theorem readN_writeFloats_of_ge (b : Buf) (base : Nat) (fs : List F32)
    (off n : Nat) (h : base + 4 * fs.length ≤ off) :
    readN (writeFloats b base fs) off n = readN b off n := by
  induction fs generalizing b base with
  | nil => rfl
  | cons f fs ih =>
    simp only [writeFloats]
    simp only [List.length_cons] at h
    rw [ih _ _ (by omega),
      readN_write_of_ge _ _ _ _ _ (by rw [length_f32Bytes]; omega)]

theorem readN_writeFloats_at (b : Buf) (base : Nat) (fs : List F32)
    (j : Nat) (hj : j < fs.length) :
    readN (writeFloats b base fs) (base + 4 * j) 4 =
      f32Bytes (fs.getD j f32zero) := by
  induction fs generalizing b base j with
  | nil => simp at hj
  | cons f fs ih =>
    match j with
    | 0 =>
      simp only [writeFloats, Nat.mul_zero, Nat.add_zero, List.getD_cons_zero]
      rw [readN_writeFloats_of_le _ _ _ _ _ (by omega)]
      exact readN_write_self_f32 _ _ _
    | j + 1 =>
      simp only [writeFloats, List.getD_cons_succ]
      have : base + 4 * (j + 1) = (base + 4) + 4 * j := by omega
      rw [this]
      exact ih _ _ j (by simpa using hj)

/-! ## Path stems -/

theorem basenameStep_no_slash (l : List Char) (acc : List Char)
    (h : '/' ∉ l) : l.foldl basenameStep acc = acc ++ l := by
  induction l generalizing acc with
  | nil => simp
  | cons c cs ih =>
    simp only [List.mem_cons, not_or] at h
    have hne : ¬ (c = '/') := fun hc => h.1 hc.symm
    simp only [List.foldl_cons, basenameStep, if_neg hne]
    rw [ih _ h.2]
    simp

theorem pyBasename_after_slash (l1 l2 : List Char) :
    pyBasename (l1 ++ '/' :: l2) = pyBasename l2 := by
  unfold pyBasename
  rw [List.foldl_append]
  simp [basenameStep]

theorem enum_filter_dot (s : List Char) :
    ((s ++ ['.', 'r', 'o', 'i']).enum.filter (fun p => p.2 = '.')).map Prod.fst =
      ((s.enum.filter (fun p => p.2 = '.')).map Prod.fst) ++ [s.length] := by
  rw [List.enum_append, List.filter_append, List.map_append]
  congr 1

theorem lastDotIdx_roi (s : List Char) :
    lastDotIdx (s ++ ['.', 'r', 'o', 'i']) = some s.length := by
  unfold lastDotIdx
  rw [enum_filter_dot, List.getLast?_concat]

theorem splitextStem_roi (s : List Char) (h2 : ∃ c ∈ s, c ≠ '.') :
    splitextStem (s ++ ['.', 'r', 'o', 'i']) = s := by
  unfold splitextStem
  rw [lastDotIdx_roi]
  have ht : (s ++ ['.', 'r', 'o', 'i']).take s.length = s := List.take_left s _
  have hany : (s.any (fun c => decide (c ≠ '.'))) = true := by
    obtain ⟨c, hc, hne⟩ := h2
    exact List.any_eq_true.mpr ⟨c, hc, by simp [hne]⟩
  simp only [ne_eq, decide_not] at hany
  simp only [ne_eq, decide_not, ht]
  rw [if_pos hany]

theorem stem_roiPath (dir s : String) (hsl : '/' ∉ s.data)
    (h2 : ∃ c ∈ s.data, c ≠ '.') :
    stem (dir ++ "//" ++ s ++ ".roi") = s := by
  unfold stem
  have hdata : (dir ++ "//" ++ s ++ ".roi").data =
      (dir.data ++ ['/']) ++ '/' :: (s.data ++ ['.', 'r', 'o', 'i']) := by
    simp [String.data_append]
  rw [hdata, pyBasename_after_slash]
  have hb : pyBasename (s.data ++ ['.', 'r', 'o', 'i']) =
      s.data ++ ['.', 'r', 'o', 'i'] := by
    unfold pyBasename
    rw [basenameStep_no_slash _ _ ?h]
    · simp
    case h =>
      intro hmem
      rcases List.mem_append.mp hmem with hm | hm
      · exact hsl hm
      · simp at hm
  rw [hb, splitextStem_roi _ h2]

/-! ## Core rectangle encode/decode lemmas -/

/-- The buffer produced by encoding a rectangle ROI: pad, magic, version,
type tag, bounds, position, header-2 offset, name offset and length, name. -/
def rectBuf (t l b r : Int) (nm : String) (p : Int) : Buf :=
  (((((((((((Buf.zero128.write 0 magicBytes).write 4 (i16Bytes 225)).write 6
      (i8Bytes 1)).write 8 (i16Bytes t)).write 10 (i16Bytes l)).write 12
      (i16Bytes b)).write 14 (i16Bytes r)).write 56 (i32Bytes p)).write 60
      (i32Bytes 64)).write 80 (i32Bytes 128)).write 84
      (i32Bytes nm.length)).write 128 (nameFieldBytes nm)

theorem readI_of (bf : Buf) (off : Int) (m w : Nat) (hoff : off = (m : Int))
    (hsz : m + w ≤ bf.size) (v : Int) (hv : unpackI w (readN bf m w) = v) :
    readI bf.toBytes off w = .ok v := by
  unfold readI
  rw [getVar_toBytes bf off m w hoff hsz, bindOk, hv, pureOk]

theorem readF_of (bf : Buf) (off : Int) (m : Nat) (hoff : off = (m : Int))
    (hsz : m + 4 ≤ bf.size) (v : F32) (hv : unpackF32 (readN bf m 4) = v) :
    readF bf.toBytes off = .ok v := by
  unfold readF
  rw [getVar_toBytes bf off m 4 hoff hsz, bindOk, hv, pureOk]

theorem size_rectBuf (t l b r : Int) (nm : String) (p : Int) :
    (rectBuf t l b r nm p).size = 128 + nm.length := by
  simp only [rectBuf, Buf.size_write, Buf.size_zero128, length_magicBytes,
    length_i8Bytes, length_i16Bytes, length_i32Bytes, length_nameFieldBytes]
  omega

theorem read_rectBuf (t l b r : Int) (nm : String) (p : Int) (path : String)
    (ht1 : -32768 ≤ t) (ht2 : t ≤ 32767) (hl1 : -32768 ≤ l) (hl2 : l ≤ 32767)
    (hb1 : -32768 ≤ b) (hb2 : b ≤ 32767) (hr1 : -32768 ≤ r) (hr2 : r ≤ 32767)
    (hp1 : -2147483648 ≤ p) (hp2 : p ≤ 2147483647)
    (hn : nm.length ≤ 2147483647) :
    read (rectBuf t l b r nm p).toBytes path =
      .ok (.rect t l b r 0 (stem path) p) := by
  have hsz : (rectBuf t l b r nm p).size = 128 + nm.length :=
    size_rectBuf t l b r nm p
  have hm : getVar (rectBuf t l b r nm p).toBytes 0 4 = .ok magicBytes := by
    rw [getVar_toBytes _ _ 0 4 (by norm_num) (by omega)]
    rw [show readN (rectBuf t l b r nm p) 0 4 = magicBytes from by
      simp (disch := omega) only [rectBuf, readN_write_of_le,
        readN_write_i8_of_ge,
        readN_write_i16_of_ge, readN_write_i32_of_ge, readN_write_magic_of_ge, readN_write_self_magic]]
  have h04 : readI (rectBuf t l b r nm p).toBytes 4 2 = .ok 225 :=
    readI_of _ _ 4 2 (by norm_num) (by omega) 225 (by
      simp (disch := omega) only [rectBuf, readN_write_of_le,
        readN_write_i8_of_ge,
        readN_write_i16_of_ge, readN_write_i32_of_ge, readN_write_magic_of_ge, readN_write_self_i16]
      exact unpackI_i16Bytes 225 (by norm_num) (by norm_num))
  have h06 : readI (rectBuf t l b r nm p).toBytes 6 1 = .ok 1 :=
    readI_of _ _ 6 1 (by norm_num) (by omega) 1 (by
      simp (disch := omega) only [rectBuf, readN_write_of_le,
        readN_write_i8_of_ge,
        readN_write_i16_of_ge, readN_write_i32_of_ge, readN_write_magic_of_ge, readN_write_self_i8]
      exact unpackI_i8Bytes 1 (by norm_num) (by norm_num))
  have h48 : readI (rectBuf t l b r nm p).toBytes 48 2 = .ok 0 :=
    readI_of _ _ 48 2 (by norm_num) (by omega) 0 (by
      simp (disch := omega) only [rectBuf, readN_write_of_le,
        readN_write_i8_of_ge,
        readN_write_i16_of_ge, readN_write_i32_of_ge, readN_write_magic_of_ge, readN_zero128]
      exact unpackI2_zeros)
  have h08 : readI (rectBuf t l b r nm p).toBytes 8 2 = .ok t :=
    readI_of _ _ 8 2 (by norm_num) (by omega) t (by
      simp (disch := omega) only [rectBuf, readN_write_of_le,
        readN_write_i8_of_ge,
        readN_write_i16_of_ge, readN_write_i32_of_ge, readN_write_magic_of_ge, readN_write_self_i16]
      exact unpackI_i16Bytes t ht1 ht2)
  have h10 : readI (rectBuf t l b r nm p).toBytes 10 2 = .ok l :=
    readI_of _ _ 10 2 (by norm_num) (by omega) l (by
      simp (disch := omega) only [rectBuf, readN_write_of_le,
        readN_write_i8_of_ge,
        readN_write_i16_of_ge, readN_write_i32_of_ge, readN_write_magic_of_ge, readN_write_self_i16]
      exact unpackI_i16Bytes l hl1 hl2)
  have h12 : readI (rectBuf t l b r nm p).toBytes 12 2 = .ok b :=
    readI_of _ _ 12 2 (by norm_num) (by omega) b (by
      simp (disch := omega) only [rectBuf, readN_write_of_le,
        readN_write_i8_of_ge,
        readN_write_i16_of_ge, readN_write_i32_of_ge, readN_write_magic_of_ge, readN_write_self_i16]
      exact unpackI_i16Bytes b hb1 hb2)
  have h14 : readI (rectBuf t l b r nm p).toBytes 14 2 = .ok r :=
    readI_of _ _ 14 2 (by norm_num) (by omega) r (by
      simp (disch := omega) only [rectBuf, readN_write_of_le,
        readN_write_i8_of_ge,
        readN_write_i16_of_ge, readN_write_i32_of_ge, readN_write_magic_of_ge, readN_write_self_i16]
      exact unpackI_i16Bytes r hr1 hr2)
  have h16 : readI (rectBuf t l b r nm p).toBytes 16 2 = .ok 0 :=
    readI_of _ _ 16 2 (by norm_num) (by omega) 0 (by
      simp (disch := omega) only [rectBuf, readN_write_of_le,
        readN_write_i8_of_ge,
        readN_write_i16_of_ge, readN_write_i32_of_ge, readN_write_magic_of_ge, readN_zero128]
      exact unpackI2_zeros)
  have h34 : readI (rectBuf t l b r nm p).toBytes 34 2 = .ok 0 :=
    readI_of _ _ 34 2 (by norm_num) (by omega) 0 (by
      simp (disch := omega) only [rectBuf, readN_write_of_le,
        readN_write_i8_of_ge,
        readN_write_i16_of_ge, readN_write_i32_of_ge, readN_write_magic_of_ge, readN_zero128]
      exact unpackI2_zeros)
  have h36 : readI (rectBuf t l b r nm p).toBytes 36 4 = .ok 0 :=
    readI_of _ _ 36 4 (by norm_num) (by omega) 0 (by
      simp (disch := omega) only [rectBuf, readN_write_of_le,
        readN_write_i8_of_ge,
        readN_write_i16_of_ge, readN_write_i32_of_ge, readN_write_magic_of_ge, readN_zero128]
      exact unpackI4_zeros)
  have h40 : readI (rectBuf t l b r nm p).toBytes 40 4 = .ok 0 :=
    readI_of _ _ 40 4 (by norm_num) (by omega) 0 (by
      simp (disch := omega) only [rectBuf, readN_write_of_le,
        readN_write_i8_of_ge,
        readN_write_i16_of_ge, readN_write_i32_of_ge, readN_write_magic_of_ge, readN_zero128]
      exact unpackI4_zeros)
  have h44 : readI (rectBuf t l b r nm p).toBytes 44 4 = .ok 0 :=
    readI_of _ _ 44 4 (by norm_num) (by omega) 0 (by
      simp (disch := omega) only [rectBuf, readN_write_of_le,
        readN_write_i8_of_ge,
        readN_write_i16_of_ge, readN_write_i32_of_ge, readN_write_magic_of_ge, readN_zero128]
      exact unpackI4_zeros)
  have h50 : readI (rectBuf t l b r nm p).toBytes 50 2 = .ok 0 :=
    readI_of _ _ 50 2 (by norm_num) (by omega) 0 (by
      simp (disch := omega) only [rectBuf, readN_write_of_le,
        readN_write_i8_of_ge,
        readN_write_i16_of_ge, readN_write_i32_of_ge, readN_write_magic_of_ge, readN_zero128]
      exact unpackI2_zeros)
  have h54 : readI (rectBuf t l b r nm p).toBytes 54 2 = .ok 0 :=
    readI_of _ _ 54 2 (by norm_num) (by omega) 0 (by
      simp (disch := omega) only [rectBuf, readN_write_of_le,
        readN_write_i8_of_ge,
        readN_write_i16_of_ge, readN_write_i32_of_ge, readN_write_magic_of_ge, readN_zero128]
      exact unpackI2_zeros)
  have h56 : readI (rectBuf t l b r nm p).toBytes 56 4 = .ok p :=
    readI_of _ _ 56 4 (by norm_num) (by omega) p (by
      simp (disch := omega) only [rectBuf, readN_write_of_le,
        readN_write_i8_of_ge,
        readN_write_i16_of_ge, readN_write_i32_of_ge, readN_write_magic_of_ge, readN_write_self_i32]
      exact unpackI_i32Bytes p hp1 hp2)
  have h60 : readI (rectBuf t l b r nm p).toBytes 60 4 = .ok 64 :=
    readI_of _ _ 60 4 (by norm_num) (by omega) 64 (by
      simp (disch := omega) only [rectBuf, readN_write_of_le,
        readN_write_i8_of_ge,
        readN_write_i16_of_ge, readN_write_i32_of_ge, readN_write_magic_of_ge, readN_write_self_i32]
      exact unpackI_i32Bytes 64 (by norm_num) (by norm_num))
  have h68 : readI (rectBuf t l b r nm p).toBytes (64 + 4) 4 = .ok 0 :=
    readI_of _ _ 68 4 (by norm_num) (by omega) 0 (by
      simp (disch := omega) only [rectBuf, readN_write_of_le,
        readN_write_i8_of_ge,
        readN_write_i16_of_ge, readN_write_i32_of_ge, readN_write_magic_of_ge, readN_zero128]
      exact unpackI4_zeros)
  have h72 : readI (rectBuf t l b r nm p).toBytes (64 + 8) 4 = .ok 0 :=
    readI_of _ _ 72 4 (by norm_num) (by omega) 0 (by
      simp (disch := omega) only [rectBuf, readN_write_of_le,
        readN_write_i8_of_ge,
        readN_write_i16_of_ge, readN_write_i32_of_ge, readN_write_magic_of_ge, readN_zero128]
      exact unpackI4_zeros)
  have h76 : readI (rectBuf t l b r nm p).toBytes (64 + 12) 4 = .ok 0 :=
    readI_of _ _ 76 4 (by norm_num) (by omega) 0 (by
      simp (disch := omega) only [rectBuf, readN_write_of_le,
        readN_write_i8_of_ge,
        readN_write_i16_of_ge, readN_write_i32_of_ge, readN_write_magic_of_ge, readN_zero128]
      exact unpackI4_zeros)
  have h80 : readI (rectBuf t l b r nm p).toBytes (64 + 16) 4 = .ok 128 :=
    readI_of _ _ 80 4 (by norm_num) (by omega) 128 (by
      simp (disch := omega) only [rectBuf, readN_write_of_le,
        readN_write_i8_of_ge,
        readN_write_i16_of_ge, readN_write_i32_of_ge, readN_write_magic_of_ge, readN_write_self_i32]
      exact unpackI_i32Bytes 128 (by norm_num) (by norm_num))
  have h84 : readI (rectBuf t l b r nm p).toBytes (64 + 20) 4 =
      .ok (nm.length : Int) :=
    readI_of _ _ 84 4 (by norm_num) (by omega) _ (by
      simp (disch := omega) only [rectBuf, readN_write_of_le,
        readN_write_i8_of_ge,
        readN_write_i16_of_ge, readN_write_i32_of_ge, readN_write_magic_of_ge, readN_write_self_i32]
      exact unpackI_i32Bytes _ (by omega) (by omega))
  have h88 : readI (rectBuf t l b r nm p).toBytes (64 + 24) 4 = .ok 0 :=
    readI_of _ _ 88 4 (by norm_num) (by omega) 0 (by
      simp (disch := omega) only [rectBuf, readN_write_of_le,
        readN_write_i8_of_ge,
        readN_write_i16_of_ge, readN_write_i32_of_ge, readN_write_magic_of_ge, readN_zero128]
      exact unpackI4_zeros)
  have h92 : readI (rectBuf t l b r nm p).toBytes (64 + 28) 2 = .ok 0 :=
    readI_of _ _ 92 2 (by norm_num) (by omega) 0 (by
      simp (disch := omega) only [rectBuf, readN_write_of_le,
        readN_write_i8_of_ge,
        readN_write_i16_of_ge, readN_write_i32_of_ge, readN_write_magic_of_ge, readN_zero128]
      exact unpackI2_zeros)
  have h94 : readI (rectBuf t l b r nm p).toBytes (64 + 30) 1 = .ok 0 :=
    readI_of _ _ 94 1 (by norm_num) (by omega) 0 (by
      simp (disch := omega) only [rectBuf, readN_write_of_le,
        readN_write_i8_of_ge,
        readN_write_i16_of_ge, readN_write_i32_of_ge, readN_write_magic_of_ge, readN_zero128]
      exact unpackI1_zeros)
  have h95 : readI (rectBuf t l b r nm p).toBytes (64 + 31) 1 = .ok 0 :=
    readI_of _ _ 95 1 (by norm_num) (by omega) 0 (by
      simp (disch := omega) only [rectBuf, readN_write_of_le,
        readN_write_i8_of_ge,
        readN_write_i16_of_ge, readN_write_i32_of_ge, readN_write_magic_of_ge, readN_zero128]
      exact unpackI1_zeros)
  have h96 : readI (rectBuf t l b r nm p).toBytes (64 + 32) 4 = .ok 0 :=
    readI_of _ _ 96 4 (by norm_num) (by omega) 0 (by
      simp (disch := omega) only [rectBuf, readN_write_of_le,
        readN_write_i8_of_ge,
        readN_write_i16_of_ge, readN_write_i32_of_ge, readN_write_magic_of_ge, readN_zero128]
      exact unpackI4_zeros)
  have hFx : readF (rectBuf t l b r nm p).toBytes (64 + 36) = .ok f32zero :=
    readF_of _ _ 100 (by norm_num) (by omega) f32zero (by
      simp (disch := omega) only [rectBuf, readN_write_of_le,
        readN_write_i8_of_ge,
        readN_write_i16_of_ge, readN_write_i32_of_ge, readN_write_magic_of_ge, readN_zero128]
      exact unpackF32_zeros)
  have h104 : readI (rectBuf t l b r nm p).toBytes (64 + 40) 4 = .ok 0 :=
    readI_of _ _ 104 4 (by norm_num) (by omega) 0 (by
      simp (disch := omega) only [rectBuf, readN_write_of_le,
        readN_write_i8_of_ge,
        readN_write_i16_of_ge, readN_write_i32_of_ge, readN_write_magic_of_ge, readN_zero128]
      exact unpackI4_zeros)
  have h108 : readI (rectBuf t l b r nm p).toBytes (64 + 44) 4 = .ok 0 :=
    readI_of _ _ 108 4 (by norm_num) (by omega) 0 (by
      simp (disch := omega) only [rectBuf, readN_write_of_le,
        readN_write_i8_of_ge,
        readN_write_i16_of_ge, readN_write_i32_of_ge, readN_write_magic_of_ge, readN_zero128]
      exact unpackI4_zeros)
  unfold read readHeader readRoiRect
  rw [hm, bindOk, if_neg (fun hc => hc rfl)]
  simp only [h04, h06, h48, h08, h10, h12, h14, h16, h34, h36, h40, h44, h50,
    h54, h56, h60, h68, h72, h76, h80, h84, h88, h92, h94, h95, h96, hFx,
    h104, h108, bindOk, pureOk]
  rw [if_neg (by norm_num : ¬ ((0 : Int) > 0))]
  rw [show roiTypeName 1 = some "rect" from rfl]
  simp only [bindOk, pureOk, if_pos rfl, if_true]

theorem writeRoi_rect_eq (t l b r a : Int) (nm : String) (p : Int)
    (ht1 : -32768 ≤ t) (ht2 : t ≤ 32767) (hl1 : -32768 ≤ l) (hl2 : l ≤ 32767)
    (hb1 : -32768 ≤ b) (hb2 : b ≤ 32767) (hr1 : -32768 ≤ r) (hr2 : r ≤ 32767)
    (hp1 : -2147483648 ≤ p) (hp2 : p ≤ 2147483647)
    (hn : nm.length ≤ 2147483647) :
    writeRoi (.rect t l b r a nm p) = (rectBuf t l b r nm p, none) := by
  simp (disch := omega) only [writeRoi, writeName, packI8_ok, packI16_ok,
    packI32_ok, wput]
  norm_num [rectBuf]

/-! ## Core shape encode/decode lemmas -/

/-- The buffer produced by encoding a shape ROI: pad, magic, version, the
rect type tag, bounds, position, `SHAPE_ROI_SIZE`, the float array at 64,
the header-2 offset past the array, name offset and length, name. -/
def shapeBuf (xs ys : List F32) (t l b r : Int) (nm : String) (p : Int) : Buf :=
  ((((writeFloats (((((((((Buf.zero128.write 0 magicBytes).write 4
      (i16Bytes 225)).write 6 (i8Bytes 1)).write 8 (i16Bytes t)).write 10
      (i16Bytes l)).write 12 (i16Bytes b)).write 14 (i16Bytes r)).write 56
      (i32Bytes p)).write 36 (i32Bytes (get_shapeArray xs ys).length)) 64
      (get_shapeArray xs ys)).write 60
      (i32Bytes (64 + 4 * (get_shapeArray xs ys).length : Nat))).write
      (64 + 4 * (get_shapeArray xs ys).length + 16)
      (i32Bytes (64 + (64 + 4 * (get_shapeArray xs ys).length) : Nat))).write
      (64 + 4 * (get_shapeArray xs ys).length + 20)
      (i32Bytes nm.length)).write
      (64 + (64 + 4 * (get_shapeArray xs ys).length)) (nameFieldBytes nm)

theorem readFloats_spec (bf : Buf) (m : Nat) (base : Int) (hb : base = (m : Int))
    (arr : List F32)
    (hsz : ∀ j, j < arr.length → m + 4 * j + 4 ≤ bf.size)
    (hread : ∀ j, j < arr.length →
      readN bf (m + 4 * j) 4 = f32Bytes (arr.getD j f32zero)) :
    readFloats bf.toBytes base arr.length = .ok arr := by
  induction arr generalizing m base with
  | nil => rfl
  | cons a arr ih =>
    simp only [List.length_cons, readFloats]
    rw [show readF bf.toBytes base = .ok a from by
      apply readF_of bf base m hb
        (by have := hsz 0 (by simp); omega)
      have h0 := hread 0 (by simp)
      rw [show m + 4 * 0 = m from by omega] at h0
      simp only [List.getD_cons_zero] at h0
      rw [h0]
      exact unpackF32_f32Bytes a]
    rw [bindOk]
    rw [ih (m + 4) (base + 4) (by rw [hb]; push_cast; ring)
      (fun j hj => by
        have := hsz (j + 1) (by simp only [List.length_cons]; omega)
        omega)
      (fun j hj => by
        have h1 := hread (j + 1) (by simp only [List.length_cons]; omega)
        rw [show m + 4 * (j + 1) = m + 4 + 4 * j from by omega] at h1
        simpa using h1)]
    rw [bindOk, pureOk]

theorem writeRoi_shape_eq (xs ys : List F32) (t l b r : Int) (nm : String)
    (p : Int)
    (hEq : xs.length = ys.length) (hone : 1 ≤ xs.length)
    (hbig : xs.length ≤ 100000000)
    (ht1 : -32768 ≤ t) (ht2 : t ≤ 32767) (hl1 : -32768 ≤ l) (hl2 : l ≤ 32767)
    (hb1 : -32768 ≤ b) (hb2 : b ≤ 32767) (hr1 : -32768 ≤ r) (hr2 : r ≤ 32767)
    (hp1 : -2147483648 ≤ p) (hp2 : p ≤ 2147483647)
    (hn : nm.length ≤ 2147483647) :
    writeRoi (.shape xs ys t l b r nm p) = (shapeBuf xs ys t l b r nm p, none) := by
  have harr : (get_shapeArray xs ys).length = 3 * xs.length + 1 :=
    length_get_shapeArray xs ys hEq hone
  simp (disch := omega) only [writeRoi, writeName, packI8_ok, packI16_ok,
    packI32_ok, wput, wfloats]
  rfl

theorem size_shapeBuf (xs ys : List F32) (t l b r : Int) (nm : String)
    (p : Int) :
    (shapeBuf xs ys t l b r nm p).size =
      128 + 4 * (get_shapeArray xs ys).length + nm.length := by
  simp (disch := first
    | omega
    | (simp only [Buf.size_write, Buf.size_zero128, length_magicBytes,
        length_i8Bytes, length_i16Bytes, length_i32Bytes]; omega))
    only [shapeBuf, Buf.size_write, Buf.size_zero128, length_magicBytes,
      length_i8Bytes, length_i16Bytes, length_i32Bytes, length_f32Bytes,
      length_nameFieldBytes, size_writeFloats]
  omega

theorem read_shapeBuf (xs ys : List F32) (t l b r : Int) (nm : String)
    (p : Int) (path : String)
    (hEq : xs.length = ys.length) (hone : 1 ≤ xs.length)
    (hbig : xs.length ≤ 100000000)
    (ht1 : -32768 ≤ t) (ht2 : t ≤ 32767) (hl1 : -32768 ≤ l) (hl2 : l ≤ 32767)
    (hb1 : -32768 ≤ b) (hb2 : b ≤ 32767) (hr1 : -32768 ≤ r) (hr2 : r ≤ 32767)
    (hp1 : -2147483648 ≤ p) (hp2 : p ≤ 2147483647)
    (hn : nm.length ≤ 2147483647) :
    read (shapeBuf xs ys t l b r nm p).toBytes path =
      .ok (.shape xs ys t l b r (stem path) p) := by
  have harr : (get_shapeArray xs ys).length = 3 * xs.length + 1 :=
    length_get_shapeArray xs ys hEq hone
  have hsz : (shapeBuf xs ys t l b r nm p).size =
      128 + 4 * (get_shapeArray xs ys).length + nm.length :=
    size_shapeBuf xs ys t l b r nm p
  have hm : getVar (shapeBuf xs ys t l b r nm p).toBytes 0 4 =
      .ok magicBytes := by
    rw [getVar_toBytes _ _ 0 4 (by norm_num) (by omega)]
    rw [show readN (shapeBuf xs ys t l b r nm p) 0 4 = magicBytes from by
      simp (disch := omega) only [shapeBuf, readN_write_of_le,
        readN_write_i8_of_ge,
        readN_write_i16_of_ge, readN_write_i32_of_ge, readN_write_magic_of_ge, readN_writeFloats_of_le, readN_write_self_magic]]
  have h04 : readI (shapeBuf xs ys t l b r nm p).toBytes 4 2 = .ok 225 :=
    readI_of _ _ 4 2 (by norm_num) (by omega) 225 (by
      simp (disch := omega) only [shapeBuf, readN_write_of_le,
        readN_write_i8_of_ge,
        readN_write_i16_of_ge, readN_write_i32_of_ge, readN_write_magic_of_ge, readN_writeFloats_of_le, readN_write_self_i16]
      exact unpackI_i16Bytes 225 (by norm_num) (by norm_num))
  have h06 : readI (shapeBuf xs ys t l b r nm p).toBytes 6 1 = .ok 1 :=
    readI_of _ _ 6 1 (by norm_num) (by omega) 1 (by
      simp (disch := omega) only [shapeBuf, readN_write_of_le,
        readN_write_i8_of_ge,
        readN_write_i16_of_ge, readN_write_i32_of_ge, readN_write_magic_of_ge, readN_writeFloats_of_le, readN_write_self_i8]
      exact unpackI_i8Bytes 1 (by norm_num) (by norm_num))
  have h48 : readI (shapeBuf xs ys t l b r nm p).toBytes 48 2 = .ok 0 :=
    readI_of _ _ 48 2 (by norm_num) (by omega) 0 (by
      simp (disch := omega) only [shapeBuf, readN_write_of_le,
        readN_write_i8_of_ge,
        readN_write_i16_of_ge, readN_write_i32_of_ge, readN_write_magic_of_ge, readN_writeFloats_of_le, readN_zero128]
      exact unpackI2_zeros)
  have h08 : readI (shapeBuf xs ys t l b r nm p).toBytes 8 2 = .ok t :=
    readI_of _ _ 8 2 (by norm_num) (by omega) t (by
      simp (disch := omega) only [shapeBuf, readN_write_of_le,
        readN_write_i8_of_ge,
        readN_write_i16_of_ge, readN_write_i32_of_ge, readN_write_magic_of_ge, readN_writeFloats_of_le, readN_write_self_i16]
      exact unpackI_i16Bytes t ht1 ht2)
  have h10 : readI (shapeBuf xs ys t l b r nm p).toBytes 10 2 = .ok l :=
    readI_of _ _ 10 2 (by norm_num) (by omega) l (by
      simp (disch := omega) only [shapeBuf, readN_write_of_le,
        readN_write_i8_of_ge,
        readN_write_i16_of_ge, readN_write_i32_of_ge, readN_write_magic_of_ge, readN_writeFloats_of_le, readN_write_self_i16]
      exact unpackI_i16Bytes l hl1 hl2)
  have h12 : readI (shapeBuf xs ys t l b r nm p).toBytes 12 2 = .ok b :=
    readI_of _ _ 12 2 (by norm_num) (by omega) b (by
      simp (disch := omega) only [shapeBuf, readN_write_of_le,
        readN_write_i8_of_ge,
        readN_write_i16_of_ge, readN_write_i32_of_ge, readN_write_magic_of_ge, readN_writeFloats_of_le, readN_write_self_i16]
      exact unpackI_i16Bytes b hb1 hb2)
  have h14 : readI (shapeBuf xs ys t l b r nm p).toBytes 14 2 = .ok r :=
    readI_of _ _ 14 2 (by norm_num) (by omega) r (by
      simp (disch := omega) only [shapeBuf, readN_write_of_le,
        readN_write_i8_of_ge,
        readN_write_i16_of_ge, readN_write_i32_of_ge, readN_write_magic_of_ge, readN_writeFloats_of_le, readN_write_self_i16]
      exact unpackI_i16Bytes r hr1 hr2)
  have h16 : readI (shapeBuf xs ys t l b r nm p).toBytes 16 2 = .ok 0 :=
    readI_of _ _ 16 2 (by norm_num) (by omega) 0 (by
      simp (disch := omega) only [shapeBuf, readN_write_of_le,
        readN_write_i8_of_ge,
        readN_write_i16_of_ge, readN_write_i32_of_ge, readN_write_magic_of_ge, readN_writeFloats_of_le, readN_zero128]
      exact unpackI2_zeros)
  have h34 : readI (shapeBuf xs ys t l b r nm p).toBytes 34 2 = .ok 0 :=
    readI_of _ _ 34 2 (by norm_num) (by omega) 0 (by
      simp (disch := omega) only [shapeBuf, readN_write_of_le,
        readN_write_i8_of_ge,
        readN_write_i16_of_ge, readN_write_i32_of_ge, readN_write_magic_of_ge, readN_writeFloats_of_le, readN_zero128]
      exact unpackI2_zeros)
  have h36 : readI (shapeBuf xs ys t l b r nm p).toBytes 36 4 =
      .ok ((get_shapeArray xs ys).length : Int) :=
    readI_of _ _ 36 4 (by norm_num) (by omega) _ (by
      simp (disch := omega) only [shapeBuf, readN_write_of_le,
        readN_write_i8_of_ge,
        readN_write_i16_of_ge, readN_write_i32_of_ge, readN_write_magic_of_ge, readN_writeFloats_of_le, readN_write_self_i32]
      exact unpackI_i32Bytes _ (by omega) (by omega))
  have h40 : readI (shapeBuf xs ys t l b r nm p).toBytes 40 4 = .ok 0 :=
    readI_of _ _ 40 4 (by norm_num) (by omega) 0 (by
      simp (disch := omega) only [shapeBuf, readN_write_of_le,
        readN_write_i8_of_ge,
        readN_write_i16_of_ge, readN_write_i32_of_ge, readN_write_magic_of_ge, readN_writeFloats_of_le, readN_zero128]
      exact unpackI4_zeros)
  have h44 : readI (shapeBuf xs ys t l b r nm p).toBytes 44 4 = .ok 0 :=
    readI_of _ _ 44 4 (by norm_num) (by omega) 0 (by
      simp (disch := omega) only [shapeBuf, readN_write_of_le,
        readN_write_i8_of_ge,
        readN_write_i16_of_ge, readN_write_i32_of_ge, readN_write_magic_of_ge, readN_writeFloats_of_le, readN_zero128]
      exact unpackI4_zeros)
  have h50 : readI (shapeBuf xs ys t l b r nm p).toBytes 50 2 = .ok 0 :=
    readI_of _ _ 50 2 (by norm_num) (by omega) 0 (by
      simp (disch := omega) only [shapeBuf, readN_write_of_le,
        readN_write_i8_of_ge,
        readN_write_i16_of_ge, readN_write_i32_of_ge, readN_write_magic_of_ge, readN_writeFloats_of_le, readN_zero128]
      exact unpackI2_zeros)
  have h56 : readI (shapeBuf xs ys t l b r nm p).toBytes 56 4 = .ok p :=
    readI_of _ _ 56 4 (by norm_num) (by omega) p (by
      simp (disch := omega) only [shapeBuf, readN_write_of_le,
        readN_write_i8_of_ge,
        readN_write_i16_of_ge, readN_write_i32_of_ge, readN_write_magic_of_ge, readN_writeFloats_of_le, readN_write_self_i32]
      exact unpackI_i32Bytes p hp1 hp2)
  have h60 : readI (shapeBuf xs ys t l b r nm p).toBytes 60 4 =
      .ok ((64 + 4 * (get_shapeArray xs ys).length : Nat) : Int) :=
    readI_of _ _ 60 4 (by norm_num) (by omega) _ (by
      simp (disch := omega) only [shapeBuf, readN_write_of_le,
        readN_write_i8_of_ge,
        readN_write_i16_of_ge, readN_write_i32_of_ge, readN_write_magic_of_ge, readN_writeFloats_of_le, readN_write_self_i32]
      exact unpackI_i32Bytes _ (by omega) (by omega))
  have hc04 : readI (shapeBuf xs ys t l b r nm p).toBytes
      (((64 + 4 * (get_shapeArray xs ys).length : Nat) : Int) + 4) 4 = .ok 0 :=
    readI_of _ _ (64 + 4 * (get_shapeArray xs ys).length + 4) 4 (by omega)
      (by omega) 0 (by
      simp (disch := omega) only [shapeBuf, readN_write_of_le,
        readN_write_i8_of_ge,
        readN_write_i16_of_ge, readN_write_i32_of_ge, readN_write_magic_of_ge, readN_writeFloats_of_ge, readN_zero128]
      exact unpackI4_zeros)
  have hc08 : readI (shapeBuf xs ys t l b r nm p).toBytes
      (((64 + 4 * (get_shapeArray xs ys).length : Nat) : Int) + 8) 4 = .ok 0 :=
    readI_of _ _ (64 + 4 * (get_shapeArray xs ys).length + 8) 4 (by omega)
      (by omega) 0 (by
      simp (disch := omega) only [shapeBuf, readN_write_of_le,
        readN_write_i8_of_ge,
        readN_write_i16_of_ge, readN_write_i32_of_ge, readN_write_magic_of_ge, readN_writeFloats_of_ge, readN_zero128]
      exact unpackI4_zeros)
  have hc12 : readI (shapeBuf xs ys t l b r nm p).toBytes
      (((64 + 4 * (get_shapeArray xs ys).length : Nat) : Int) + 12) 4 = .ok 0 :=
    readI_of _ _ (64 + 4 * (get_shapeArray xs ys).length + 12) 4 (by omega)
      (by omega) 0 (by
      simp (disch := omega) only [shapeBuf, readN_write_of_le,
        readN_write_i8_of_ge,
        readN_write_i16_of_ge, readN_write_i32_of_ge, readN_write_magic_of_ge, readN_writeFloats_of_ge, readN_zero128]
      exact unpackI4_zeros)
  have hc16 : readI (shapeBuf xs ys t l b r nm p).toBytes
      (((64 + 4 * (get_shapeArray xs ys).length : Nat) : Int) + 16) 4 =
      .ok ((64 + (64 + 4 * (get_shapeArray xs ys).length) : Nat) : Int) :=
    readI_of _ _ (64 + 4 * (get_shapeArray xs ys).length + 16) 4 (by omega)
      (by omega) _ (by
      simp (disch := omega) only [shapeBuf, readN_write_of_le,
        readN_write_i8_of_ge,
        readN_write_i16_of_ge, readN_write_i32_of_ge, readN_write_magic_of_ge, readN_writeFloats_of_ge, readN_write_self_i32]
      exact unpackI_i32Bytes _ (by omega) (by omega))
  have hc20 : readI (shapeBuf xs ys t l b r nm p).toBytes
      (((64 + 4 * (get_shapeArray xs ys).length : Nat) : Int) + 20) 4 =
      .ok (nm.length : Int) :=
    readI_of _ _ (64 + 4 * (get_shapeArray xs ys).length + 20) 4 (by omega)
      (by omega) _ (by
      simp (disch := omega) only [shapeBuf, readN_write_of_le,
        readN_write_i8_of_ge,
        readN_write_i16_of_ge, readN_write_i32_of_ge, readN_write_magic_of_ge, readN_writeFloats_of_ge, readN_write_self_i32]
      exact unpackI_i32Bytes _ (by omega) (by omega))
  have hc24 : readI (shapeBuf xs ys t l b r nm p).toBytes
      (((64 + 4 * (get_shapeArray xs ys).length : Nat) : Int) + 24) 4 = .ok 0 :=
    readI_of _ _ (64 + 4 * (get_shapeArray xs ys).length + 24) 4 (by omega)
      (by omega) 0 (by
      simp (disch := omega) only [shapeBuf, readN_write_of_le,
        readN_write_i8_of_ge,
        readN_write_i16_of_ge, readN_write_i32_of_ge, readN_write_magic_of_ge, readN_writeFloats_of_ge, readN_zero128]
      exact unpackI4_zeros)
  have hc28 : readI (shapeBuf xs ys t l b r nm p).toBytes
      (((64 + 4 * (get_shapeArray xs ys).length : Nat) : Int) + 28) 2 = .ok 0 :=
    readI_of _ _ (64 + 4 * (get_shapeArray xs ys).length + 28) 2 (by omega)
      (by omega) 0 (by
      simp (disch := omega) only [shapeBuf, readN_write_of_le,
        readN_write_i8_of_ge,
        readN_write_i16_of_ge, readN_write_i32_of_ge, readN_write_magic_of_ge, readN_writeFloats_of_ge, readN_zero128]
      exact unpackI2_zeros)
  have hc30 : readI (shapeBuf xs ys t l b r nm p).toBytes
      (((64 + 4 * (get_shapeArray xs ys).length : Nat) : Int) + 30) 1 = .ok 0 :=
    readI_of _ _ (64 + 4 * (get_shapeArray xs ys).length + 30) 1 (by omega)
      (by omega) 0 (by
      simp (disch := omega) only [shapeBuf, readN_write_of_le,
        readN_write_i8_of_ge,
        readN_write_i16_of_ge, readN_write_i32_of_ge, readN_write_magic_of_ge, readN_writeFloats_of_ge, readN_zero128]
      exact unpackI1_zeros)
  have hc31 : readI (shapeBuf xs ys t l b r nm p).toBytes
      (((64 + 4 * (get_shapeArray xs ys).length : Nat) : Int) + 31) 1 = .ok 0 :=
    readI_of _ _ (64 + 4 * (get_shapeArray xs ys).length + 31) 1 (by omega)
      (by omega) 0 (by
      simp (disch := omega) only [shapeBuf, readN_write_of_le,
        readN_write_i8_of_ge,
        readN_write_i16_of_ge, readN_write_i32_of_ge, readN_write_magic_of_ge, readN_writeFloats_of_ge, readN_zero128]
      exact unpackI1_zeros)
  have hc32 : readI (shapeBuf xs ys t l b r nm p).toBytes
      (((64 + 4 * (get_shapeArray xs ys).length : Nat) : Int) + 32) 4 = .ok 0 :=
    readI_of _ _ (64 + 4 * (get_shapeArray xs ys).length + 32) 4 (by omega)
      (by omega) 0 (by
      simp (disch := omega) only [shapeBuf, readN_write_of_le,
        readN_write_i8_of_ge,
        readN_write_i16_of_ge, readN_write_i32_of_ge, readN_write_magic_of_ge, readN_writeFloats_of_ge, readN_zero128]
      exact unpackI4_zeros)
  have hc36 : readF (shapeBuf xs ys t l b r nm p).toBytes
      (((64 + 4 * (get_shapeArray xs ys).length : Nat) : Int) + 36) =
      .ok f32zero :=
    readF_of _ _ (64 + 4 * (get_shapeArray xs ys).length + 36) (by omega)
      (by omega) f32zero (by
      simp (disch := omega) only [shapeBuf, readN_write_of_le,
        readN_write_i8_of_ge,
        readN_write_i16_of_ge, readN_write_i32_of_ge, readN_write_magic_of_ge, readN_writeFloats_of_ge, readN_zero128]
      exact unpackF32_zeros)
  have hc40 : readI (shapeBuf xs ys t l b r nm p).toBytes
      (((64 + 4 * (get_shapeArray xs ys).length : Nat) : Int) + 40) 4 = .ok 0 :=
    readI_of _ _ (64 + 4 * (get_shapeArray xs ys).length + 40) 4 (by omega)
      (by omega) 0 (by
      simp (disch := omega) only [shapeBuf, readN_write_of_le,
        readN_write_i8_of_ge,
        readN_write_i16_of_ge, readN_write_i32_of_ge, readN_write_magic_of_ge, readN_writeFloats_of_ge, readN_zero128]
      exact unpackI4_zeros)
  have hc44 : readI (shapeBuf xs ys t l b r nm p).toBytes
      (((64 + 4 * (get_shapeArray xs ys).length : Nat) : Int) + 44) 4 = .ok 0 :=
    readI_of _ _ (64 + 4 * (get_shapeArray xs ys).length + 44) 4 (by omega)
      (by omega) 0 (by
      simp (disch := omega) only [shapeBuf, readN_write_of_le,
        readN_write_i8_of_ge,
        readN_write_i16_of_ge, readN_write_i32_of_ge, readN_write_magic_of_ge, readN_writeFloats_of_ge, readN_zero128]
      exact unpackI4_zeros)
  have hfl : readFloats (shapeBuf xs ys t l b r nm p).toBytes 64
      (get_shapeArray xs ys).length = .ok (get_shapeArray xs ys) := by
    apply readFloats_spec _ 64 _ (by norm_num)
    · intro j hj
      omega
    · intro j hj
      simp (disch := omega) only [shapeBuf, readN_write_of_le,
        readN_write_i8_of_ge,
        readN_write_i16_of_ge, readN_write_i32_of_ge, readN_write_magic_of_ge, readN_writeFloats_at]
  unfold read readHeader readRoiShape
  rw [hm, bindOk, if_neg (fun hc => hc rfl)]
  simp only [h04, h06, h48, h08, h10, h12, h14, h16, h34, h36, h40, h44, h50,
    h56, h60, hc04, hc08, hc12, hc16, hc20, hc24, hc28, hc30, hc31, hc32,
    hc36, hc40, hc44, bindOk, pureOk]
  rw [if_pos (show (((get_shapeArray xs ys).length : Nat) : Int) > 0 from
    by omega)]
  rw [if_neg (show ¬ ((1 : Int) ≠ 1) from fun hc => hc rfl)]
  rw [Int.toNat_natCast, hfl, bindOk]
  rw [coords_roundtrip xs ys hEq hone]

/-! ## Error analysis of the decoder

Every raise site after the magic check is either a `struct.error`-class
failure (short slice) or one of the dispatch errors; none of them is the
magic-mismatch `IOError`.  These lemmas isolate which errors each decoding
stage can produce. -/

theorem getVar_cases (l : List Nat) (off : Int) (n : Nat) :
    (∃ bs, getVar l off n = .ok bs) ∨ getVar l off n = .error .structError := by
  unfold getVar
  by_cases hc : (pySlice l off (off + n)).length = n
  · exact Or.inl ⟨pySlice l off (off + n), by rw [if_pos hc]⟩
  · exact Or.inr (by rw [if_neg hc])

theorem readI_cases (l : List Nat) (off : Int) (w : Nat) :
    (∃ v, readI l off w = .ok v) ∨ readI l off w = .error .structError := by
  unfold readI
  rcases getVar_cases l off w with ⟨bs, h⟩ | h
  · exact Or.inl ⟨_, by rw [h, bindOk, pureOk]⟩
  · exact Or.inr (by rw [h, bindErr])

theorem readF_cases (l : List Nat) (off : Int) :
    (∃ v, readF l off = .ok v) ∨ readF l off = .error .structError := by
  unfold readF
  rcases getVar_cases l off 4 with ⟨bs, h⟩ | h
  · exact Or.inl ⟨_, by rw [h, bindOk, pureOk]⟩
  · exact Or.inr (by rw [h, bindErr])

theorem readI_ne (l : List Nat) (off : Int) (w : Nat) (e0 : ROIError)
    (h : e0 ≠ .structError) : readI l off w ≠ .error e0 := by
  rcases readI_cases l off w with ⟨v, hv⟩ | hv <;> rw [hv] <;> intro hc
  · exact Except.noConfusion hc
  · exact h (Except.error.inj hc).symm

theorem readF_ne (l : List Nat) (off : Int) (e0 : ROIError)
    (h : e0 ≠ .structError) : readF l off ≠ .error e0 := by
  rcases readF_cases l off with ⟨v, hv⟩ | hv <;> rw [hv] <;> intro hc
  · exact Except.noConfusion hc
  · exact h (Except.error.inj hc).symm

theorem bind_ne_error {α β : Type} (x : Except ROIError α)
    (f : α → Except ROIError β) (e0 : ROIError) (hx : x ≠ .error e0)
    (hf : ∀ a, f a ≠ .error e0) : Bind.bind x f ≠ .error e0 := by
  cases x with
  | ok a => simpa [bindOk] using hf a
  | error e => simpa [bindErr] using hx

theorem readFloats_ne (l : List Nat) (base : Int) (k : Nat) (e0 : ROIError)
    (h : e0 ≠ .structError) : readFloats l base k ≠ .error e0 := by
  induction k generalizing base with
  | zero =>
    intro hc
    exact Except.noConfusion hc
  | succ k ih =>
    simp only [readFloats]
    apply bind_ne_error _ _ _ (readF_ne l base e0 h)
    intro a
    apply bind_ne_error _ _ _ (ih (base + 4))
    intro fs hc
    simp [pureOk] at hc

theorem readRoiRect_ne (l : List Nat) (nm : String) (e0 : ROIError)
    (h : e0 ≠ .structError) : readRoiRect l nm ≠ .error e0 := by
  unfold readRoiRect
  apply bind_ne_error _ _ _ (readI_ne l 54 2 e0 h)
  intro a
  apply bind_ne_error _ _ _ (readI_ne l 8 2 e0 h)
  intro b
  apply bind_ne_error _ _ _ (readI_ne l 10 2 e0 h)
  intro c
  apply bind_ne_error _ _ _ (readI_ne l 12 2 e0 h)
  intro d
  apply bind_ne_error _ _ _ (readI_ne l 14 2 e0 h)
  intro e
  apply bind_ne_error _ _ _ (readI_ne l 56 4 e0 h)
  intro f hc
  simp [pureOk] at hc

theorem readRoiShape_ne (l : List Nat) (hd : Header) (nm : String)
    (e0 : ROIError) (h1 : e0 ≠ .structError) (h2 : e0 ≠ .invalidCompositeType) :
    readRoiShape l hd nm ≠ .error e0 := by
  unfold readRoiShape
  by_cases hty : hd.TYPE ≠ 1
  · rw [if_pos hty]
    intro hc
    exact h2 (Except.error.inj hc).symm
  · rw [if_neg hty]
    apply bind_ne_error _ _ _ (readFloats_ne l 64 _ e0 h1)
    intro arr hc
    simp [pureOk] at hc

/-- When the type tag is the rect tag, the composite reader can only succeed
or fail with a short-read error — never with the composite-type error. -/
theorem readRoiShape_tag1_ne (l : List Nat) (hd : Header) (nm : String)
    (hty : hd.TYPE = 1) : readRoiShape l hd nm ≠ .error .invalidCompositeType := by
  unfold readRoiShape
  rw [if_neg (by rw [hty]; exact fun hc => hc rfl)]
  apply bind_ne_error _ _ _
    (readFloats_ne l 64 _ _ (fun hc => ROIError.noConfusion hc))
  intro arr hc
  simp [pureOk] at hc

theorem pySlice_magic (l : List Nat) :
    pySlice l 0 (0 + ((4 : Nat) : Int)) = l.take 4 := by
  unfold pySlice
  have h1 : ¬ ((0 : Int) < 0) := by norm_num
  have h2 : ¬ ((0 : Int) + ((4 : Nat) : Int) < 0) := by norm_num
  simp only [if_neg h1, if_neg h2]
  have e1 : (min (0 : Int) (l.length : Int)).toNat = 0 := by omega
  have e2 : (min ((0 : Int) + ((4 : Nat) : Int)) (l.length : Int)).toNat =
      min 4 l.length := by omega
  rw [e1, e2]
  simp only [List.drop_zero, Nat.sub_zero]
  rcases le_or_lt 4 l.length with h | h
  · rw [min_eq_left h]
  · rw [min_eq_right (le_of_lt h), List.take_length,
      List.take_of_length_le (le_of_lt h)]

theorem getVar_magic_short (l : List Nat) (h : l.length < 4) :
    getVar l 0 4 = .error .structError := by
  unfold getVar
  rw [pySlice_magic]
  rw [if_neg (by simp only [List.length_take]; omega)]

theorem getVar_magic_ok (l : List Nat) (h : 4 ≤ l.length) :
    getVar l 0 4 = .ok (l.take 4) := by
  unfold getVar
  rw [pySlice_magic]
  rw [if_pos (by simp only [List.length_take]; omega)]

theorem readHeader_ne_fmt (l : List Nat) (hmg : l.take 4 = magicBytes) :
    readHeader l ≠ .error .formatError := by
  have hlen : 4 ≤ l.length := by
    have hl := congrArg List.length hmg
    simp only [List.length_take, length_magicBytes] at hl
    omega
  unfold readHeader
  rw [getVar_magic_ok l hlen, bindOk, hmg, if_neg (fun hc => hc rfl)]
  have hfmt : (ROIError.formatError) ≠ .structError :=
    fun hc => ROIError.noConfusion hc
  apply bind_ne_error _ _ _ (readI_ne _ _ _ _ hfmt)
  intro v1
  apply bind_ne_error _ _ _ (readI_ne _ _ _ _ hfmt)
  intro v2
  apply bind_ne_error _ _ _ (readI_ne _ _ _ _ hfmt)
  intro v3
  apply bind_ne_error _ _ _ (readI_ne _ _ _ _ hfmt)
  intro v4
  apply bind_ne_error _ _ _ (readI_ne _ _ _ _ hfmt)
  intro v5
  apply bind_ne_error _ _ _ (readI_ne _ _ _ _ hfmt)
  intro v6
  apply bind_ne_error _ _ _ (readI_ne _ _ _ _ hfmt)
  intro v7
  apply bind_ne_error _ _ _ (readI_ne _ _ _ _ hfmt)
  intro v8
  apply bind_ne_error _ _ _ (readI_ne _ _ _ _ hfmt)
  intro v9
  apply bind_ne_error _ _ _ (readI_ne _ _ _ _ hfmt)
  intro v10
  apply bind_ne_error _ _ _ (readI_ne _ _ _ _ hfmt)
  intro v11
  apply bind_ne_error _ _ _ (readI_ne _ _ _ _ hfmt)
  intro v12
  apply bind_ne_error _ _ _ (readI_ne _ _ _ _ hfmt)
  intro v13
  apply bind_ne_error _ _ _ (readI_ne _ _ _ _ hfmt)
  intro v14
  apply bind_ne_error _ _ _ (readI_ne _ _ _ _ hfmt)
  intro v15
  apply bind_ne_error _ _ _ (readI_ne _ _ _ _ hfmt)
  intro v16
  apply bind_ne_error _ _ _ (readI_ne _ _ _ _ hfmt)
  intro v17
  apply bind_ne_error _ _ _ (readI_ne _ _ _ _ hfmt)
  intro v18
  apply bind_ne_error _ _ _ (readI_ne _ _ _ _ hfmt)
  intro v19
  apply bind_ne_error _ _ _ (readI_ne _ _ _ _ hfmt)
  intro v20
  apply bind_ne_error _ _ _ (readI_ne _ _ _ _ hfmt)
  intro v21
  apply bind_ne_error _ _ _ (readI_ne _ _ _ _ hfmt)
  intro v22
  apply bind_ne_error _ _ _ (readI_ne _ _ _ _ hfmt)
  intro v23
  apply bind_ne_error _ _ _ (readI_ne _ _ _ _ hfmt)
  intro v24
  apply bind_ne_error _ _ _ (readI_ne _ _ _ _ hfmt)
  intro v25
  apply bind_ne_error _ _ _ (readF_ne _ _ _ hfmt)
  intro v26
  apply bind_ne_error _ _ _ (readI_ne _ _ _ _ hfmt)
  intro v27
  apply bind_ne_error _ _ _ (readI_ne _ _ _ _ hfmt)
  intro v28 hc
  simp [pureOk] at hc

theorem read_ne_fmt (l : List Nat) (path : String) (hmg : l.take 4 = magicBytes) :
    read l path ≠ .error .formatError := by
  unfold read
  apply bind_ne_error _ _ _ (readHeader_ne_fmt l hmg)
  intro h
  have hfmt : (ROIError.formatError) ≠ .structError :=
    fun hc => ROIError.noConfusion hc
  by_cases hs : h.SHAPE_ROI_SIZE > 0
  · rw [if_pos hs]
    exact readRoiShape_ne _ _ _ _ hfmt (fun hc => ROIError.noConfusion hc)
  · rw [if_neg hs]
    cases hk : roiTypeName h.TYPE with
    | none => exact fun hc => ROIError.noConfusion (Except.error.inj hc).symm
    | some k =>
      dsimp only
      by_cases hr : k = "rect"
      · rw [if_pos hr]
        exact readRoiRect_ne _ _ _ hfmt
      · rw [if_neg hr]
        exact fun hc => ROIError.noConfusion (Except.error.inj hc).symm

theorem read_fmt_of_bad_magic (l : List Nat) (path : String)
    (hlen : 4 ≤ l.length) (hmg : l.take 4 ≠ magicBytes) :
    read l path = .error .formatError := by
  unfold read readHeader
  rw [getVar_magic_ok l hlen, bindOk, if_pos hmg, bindErr]

theorem read_struct_of_short (l : List Nat) (path : String)
    (hlen : l.length < 4) : read l path = .error .structError := by
  unfold read readHeader
  rw [getVar_magic_short l hlen, bindErr, bindErr]

/-! ## Archive round trip -/

/-- Range of a `>h` field. -/
def i16ok (v : Int) : Prop := -32768 ≤ v ∧ v ≤ 32767

/-- Range of a `>i` field. -/
def i32ok (v : Int) : Prop := -2147483648 ≤ v ∧ v ≤ 2147483647

instance (v : Int) : Decidable (i16ok v) := by unfold i16ok; infer_instance

instance (v : Int) : Decidable (i32ok v) := by unfold i32ok; infer_instance

/-- ROIs the encoder serialises without raising and whose entry path round
trips: the bounds fit `>h`, the position fits `>i`, the name is clean, and a
shape has matching nonempty coordinate lists of bounded length. -/
def EncOk : ROI → Prop
  | .rect t l b r _ nm p =>
      i16ok t ∧ i16ok l ∧ i16ok b ∧ i16ok r ∧ i32ok p ∧ goodName nm
  | .shape xs ys t l b r nm p =>
      xs.length = ys.length ∧ 1 ≤ xs.length ∧ xs.length ≤ 100000000 ∧
      i16ok t ∧ i16ok l ∧ i16ok b ∧ i16ok r ∧ i32ok p ∧ goodName nm
  | .unsupported _ => False

instance : DecidablePred EncOk := fun roi => by
  cases roi with
  | rect t l b r a nm p => unfold EncOk; infer_instance
  | shape xs ys t l b r nm p => unfold EncOk; infer_instance
  | unsupported k => unfold EncOk; infer_instance

/-- One encode/decode round trip through a file whose path is built from the
ROI's name, as both the plain writer and the archive writer do. -/
theorem read_writeRoi (dir : String) (roi : ROI) (hok : EncOk roi) :
    (writeRoi roi).2 = none ∧
    read (writeRoi roi).1.toBytes (dir ++ "//" ++ roi.name ++ ".roi") =
      .ok (rtNorm roi) := by
  cases roi with
  | rect t l b r a nm p =>
    obtain ⟨⟨ht1, ht2⟩, ⟨hl1, hl2⟩, ⟨hb1, hb2⟩, ⟨hr1, hr2⟩, ⟨hp1, hp2⟩,
      hne, hsl, hdot, hln⟩ := hok
    rw [writeRoi_rect_eq t l b r a nm p ht1 ht2 hl1 hl2 hb1 hb2 hr1 hr2
      hp1 hp2 hln]
    refine ⟨rfl, ?_⟩
    rw [read_rectBuf t l b r nm p _ ht1 ht2 hl1 hl2 hb1 hb2 hr1 hr2
      hp1 hp2 hln]
    rw [show (ROI.rect t l b r a nm p).name = nm from rfl,
      stem_roiPath dir nm hsl hdot]
    rfl
  | shape xs ys t l b r nm p =>
    obtain ⟨hEq, hone, hbig, ⟨ht1, ht2⟩, ⟨hl1, hl2⟩, ⟨hb1, hb2⟩, ⟨hr1, hr2⟩,
      ⟨hp1, hp2⟩, hne, hsl, hdot, hln⟩ := hok
    rw [writeRoi_shape_eq xs ys t l b r nm p hEq hone hbig ht1 ht2 hl1 hl2
      hb1 hb2 hr1 hr2 hp1 hp2 hln]
    refine ⟨rfl, ?_⟩
    rw [read_shapeBuf xs ys t l b r nm p _ hEq hone hbig ht1 ht2 hl1 hl2
      hb1 hb2 hr1 hr2 hp1 hp2 hln]
    rw [show (ROI.shape xs ys t l b r nm p).name = nm from rfl,
      stem_roiPath dir nm hsl hdot]
    rfl
  | unsupported k => exact absurd hok (fun hc => hc)

theorem write_zip_snd (dir : String) (rois : List ROI)
    (h : ∀ r ∈ rois, EncOk r) : (write_zip dir rois).2 = none := by
  induction rois with
  | nil => rfl
  | cons roi rest ih =>
    have h1 := (read_writeRoi dir roi (h roi (by simp))).1
    unfold write_zip
    rcases hw : writeRoi roi with ⟨bf, e⟩
    rw [hw] at h1
    simp only at h1
    subst h1
    simp only
    rw [show (write_zip dir rest).2 = none from
      ih (fun r hr => h r (by simp [hr]))]

theorem write_zip_mapM_positional (dir : String) (rois : List ROI)
    (h : ∀ r ∈ rois, EncOk r) :
    (write_zip dir rois).1.mapM (fun e => read e.2.toBytes e.1) =
      .ok (rois.map rtNorm) := by
  induction rois with
  | nil => rfl
  | cons roi rest ih =>
    have h1 := (read_writeRoi dir roi (h roi (by simp))).1
    have h2 := (read_writeRoi dir roi (h roi (by simp))).2
    unfold write_zip
    rcases hw : writeRoi roi with ⟨bf, e⟩
    rw [hw] at h1 h2
    simp only at h1
    subst h1
    simp only at h2
    simp only [List.map_cons, List.mapM_cons]
    rw [h2, bindOk]
    rw [show List.mapM (fun e => read e.2.toBytes e.1) (write_zip dir rest).1 =
      .ok (rest.map rtNorm) from ih (fun r hr => h r (by simp [hr]))]
    rw [bindOk, pureOk]

/-! ### Name resolution through the archive dictionary -/

theorem zipLookup_acc_of_not_mem (entries : List (String × Buf)) (n : String)
    (acc : Option Buf) (h : ∀ e ∈ entries, e.1 ≠ n) :
    entries.foldl (fun acc e => if e.1 = n then some e.2 else acc) acc = acc := by
  induction entries generalizing acc with
  | nil => rfl
  | cons e es ih =>
    simp only [List.foldl_cons]
    rw [if_neg (h e (by simp))]
    exact ih acc (fun e' he' => h e' (by simp [he']))

/-- With pairwise-distinct entry names, the dictionary resolves each entry's
name to that entry's own bytes. -/
theorem zipLookup_of_mem (entries : List (String × Buf)) (n : String)
    (bf : Buf) (hdist : entries.Pairwise (fun a b => a.1 ≠ b.1))
    (hmem : (n, bf) ∈ entries) : zipLookup entries n = some bf := by
  induction entries with
  | nil => simp at hmem
  | cons e es ih =>
    rw [List.pairwise_cons] at hdist
    unfold zipLookup
    rcases List.mem_cons.mp hmem with heq | hmem'
    · simp only [List.foldl_cons, ← heq, if_pos rfl]
      exact zipLookup_acc_of_not_mem es n (some bf)
        (fun e' he' => by
          have := hdist.1 e' he'
          rw [← heq] at this
          exact fun hc => this hc.symm)
    · have hne : ¬ (e.1 = n) := by
        intro hc
        have he' := hdist.1 (n, bf) hmem'
        simp only at he'
        exact he' hc
      simp only [List.foldl_cons, if_neg hne]
      exact ih hdist.2 hmem'

/-- With pairwise-distinct entry names, opening by name is the same as
reading each entry's own bytes positionally. -/
theorem read_zip_eq_positional (entries : List (String × Buf))
    (hl : ∀ e ∈ entries, zipLookup entries e.1 = some e.2) :
    read_zip entries = entries.mapM (fun e => read e.2.toBytes e.1) := by
  unfold read_zip
  have aux : ∀ sub : List (String × Buf),
      (∀ e ∈ sub, zipLookup entries e.1 = some e.2) →
      sub.mapM (fun e =>
        match zipLookup entries e.1 with
        | some bf => read bf.toBytes e.1
        | none => Except.error .keyError) =
        sub.mapM (fun e => read e.2.toBytes e.1) := by
    intro sub
    induction sub with
    | nil => intro _; rfl
    | cons e es ih =>
      intro hsub
      rw [List.mapM_cons, List.mapM_cons, hsub e (by simp)]
      rw [ih (fun e' he' => hsub e' (by simp [he']))]
  exact aux entries hl

/-- Two archive entry paths built from the same directory coincide only when
the ROI names coincide. -/
theorem roiPath_inj (dir a b : String)
    (h : dir ++ "//" ++ a ++ ".roi" = dir ++ "//" ++ b ++ ".roi") : a = b := by
  have hd := congrArg String.data h
  simp only [String.data_append] at hd
  have h1 := List.append_cancel_right hd
  have h2 := List.append_cancel_left h1
  cases a
  cases b
  exact congrArg String.mk h2

theorem write_zip_fst (dir : String) (rois : List ROI)
    (h : ∀ r ∈ rois, EncOk r) :
    (write_zip dir rois).1.map Prod.fst =
      rois.map (fun r => dir ++ "//" ++ r.name ++ ".roi") := by
  induction rois with
  | nil => rfl
  | cons roi rest ih =>
    have h1 := (read_writeRoi dir roi (h roi (by simp))).1
    unfold write_zip
    rcases hw : writeRoi roi with ⟨bf, e⟩
    rw [hw] at h1
    simp only at h1
    subst h1
    simp only [List.map_cons]
    rw [← ih (fun r hr => h r (by simp [hr]))]

theorem write_zip_entry_names_distinct (dir : String) (rois : List ROI)
    (h : ∀ r ∈ rois, EncOk r)
    (hdist : rois.Pairwise (fun a b => a.name ≠ b.name)) :
    (write_zip dir rois).1.Pairwise (fun a b => a.1 ≠ b.1) := by
  have hfst := write_zip_fst dir rois h
  have hpaths : (rois.map (fun r => dir ++ "//" ++ r.name ++ ".roi")).Pairwise
      (fun a b => a ≠ b) := by
    rw [List.pairwise_map]
    exact hdist.imp (fun hab hc => hab (roiPath_inj dir _ _ hc))
  rw [← hfst] at hpaths
  exact List.pairwise_map.mp hpaths

theorem read_write_zip (dir : String) (rois : List ROI)
    (h : ∀ r ∈ rois, EncOk r)
    (hdist : rois.Pairwise (fun a b => a.name ≠ b.name)) :
    read_zip (write_zip dir rois).1 = .ok (rois.map rtNorm) := by
  rw [read_zip_eq_positional (write_zip dir rois).1 (fun e he =>
    zipLookup_of_mem _ _ _ (write_zip_entry_names_distinct dir rois h hdist)
      (by simpa using he))]
  exact write_zip_mapM_positional dir rois h

/-! ## Remaining helper facts for the claims -/

theorem stem_fileName (s : String) (hsl : '/' ∉ s.data)
    (hdot : ∃ c ∈ s.data, c ≠ '.') : stem (s ++ ".roi") = s := by
  unfold stem
  have hdata : (s ++ ".roi").data = s.data ++ ['.', 'r', 'o', 'i'] := by
    simp [String.data_append]
  rw [hdata]
  have hb : pyBasename (s.data ++ ['.', 'r', 'o', 'i']) =
      s.data ++ ['.', 'r', 'o', 'i'] := by
    unfold pyBasename
    rw [basenameStep_no_slash _ _ ?hh]
    · simp
    case hh =>
      intro hmem
      rcases List.mem_append.mp hmem with hm | hm
      · exact hsl hm
      · simp at hm
  rw [hb, splitextStem_roi _ hdot]

/-- The `SHAPE_ROI_SIZE` field bytes of an encoded shape hold the float
count of the coordinate array. -/
theorem readN_shapeBuf_size36 (xs ys : List F32) (t l b r : Int) (nm : String)
    (p : Int) :
    readN (shapeBuf xs ys t l b r nm p) 36 4 =
      i32Bytes ((get_shapeArray xs ys).length : Int) := by
  simp (disch := omega) only [shapeBuf, readN_write_of_le,
    readN_write_i8_of_ge,
        readN_write_i16_of_ge, readN_write_i32_of_ge, readN_write_magic_of_ge,
    readN_writeFloats_of_le, readN_write_self_i32]

/-- The `ROUNDED_RECT_ARC_SIZE` bytes 54-55 of an encoded rectangle are
never written and stay zero. -/
theorem readN_rectBuf_54 (t l b r : Int) (nm : String) (p : Int) :
    readN (rectBuf t l b r nm p) 54 2 = List.replicate 2 0 := by
  simp (disch := omega) only [rectBuf, readN_write_of_le,
    readN_write_i8_of_ge,
        readN_write_i16_of_ge, readN_write_i32_of_ge, readN_write_magic_of_ge,
    readN_zero128]

/-- Modelled from the claim wording of C2: leading sentinel 0.0, then
`y, x, 1.0` per pair, then drop the final emitted value and append the
trailing sentinel 4.0. -/
def claimShapeArray (xs ys : List F32) : List F32 :=
  (f32zero :: (xs.zip ys).flatMap (fun q => [q.2, q.1, f32one])).dropLast ++
    [f32four]

theorem get_shapeArray_eq_claim (xs ys : List F32) :
    get_shapeArray xs ys = claimShapeArray xs ys := by
  rw [get_shapeArray_eq]
  rfl

theorem toVal_f32zero : F32.toVal f32zero = 0 := by
  norm_num [F32.toVal, f32zero]

theorem toVal_f32one : F32.toVal f32one = 1 := by
  norm_num [F32.toVal, f32one]

theorem toVal_f32two : F32.toVal f32two = 2 := by
  norm_num [F32.toVal, f32two]

theorem toVal_f32three : F32.toVal f32three = 3 := by
  norm_num [F32.toVal, f32three]

theorem toVal_f32four : F32.toVal f32four = 4 := by
  norm_num [F32.toVal, f32four]

theorem toVal_f32five : F32.toVal f32five = 5 := by
  norm_num [F32.toVal, f32five]

theorem toVal_f32six : F32.toVal f32six = 6 := by
  norm_num [F32.toVal, f32six]

/-! ## The claims -/

/-- C1: for every shape ROI with n >= 1 coordinate pairs (equal-length
coordinate lists, bounds fitting int16, position fitting int32, clean name),
decoding the bytes produced by encoding it succeeds and recovers the
original coordinate pairs bit-for-bit (single precision), in order, together
with the encoded bounding box and position; the name comes from the path
stem. -/
theorem claim_C1 (xs ys : List F32) (t l b r : Int) (nm : String) (p : Int)
    (path : String) (hEq : xs.length = ys.length) (hone : 1 ≤ xs.length)
    (hbig : xs.length ≤ 100000000) (ht : i16ok t) (hl : i16ok l)
    (hb : i16ok b) (hr : i16ok r) (hp : i32ok p)
    (hn : nm.length ≤ 2147483647) :
    (writeRoi (.shape xs ys t l b r nm p)).2 = none ∧
    read (writeRoi (.shape xs ys t l b r nm p)).1.toBytes path =
      .ok (.shape xs ys t l b r (stem path) p) := by
  obtain ⟨ht1, ht2⟩ := ht
  obtain ⟨hl1, hl2⟩ := hl
  obtain ⟨hb1, hb2⟩ := hb
  obtain ⟨hr1, hr2⟩ := hr
  obtain ⟨hp1, hp2⟩ := hp
  rw [writeRoi_shape_eq xs ys t l b r nm p hEq hone hbig ht1 ht2 hl1 hl2
    hb1 hb2 hr1 hr2 hp1 hp2 hn]
  exact ⟨rfl, read_shapeBuf xs ys t l b r nm p path hEq hone hbig ht1 ht2
    hl1 hl2 hb1 hb2 hr1 hr2 hp1 hp2 hn⟩

/-- C1 witness: a one-pair shape round trip at concrete values. -/
theorem claim_C1_witness :
    (writeRoi (.shape [f32one] [f32four] 1 1 1 4 "s" 2)).2 = none ∧
    read (writeRoi (.shape [f32one] [f32four] 1 1 1 4 "s" 2)).1.toBytes
      "s.roi" = .ok (.shape [f32one] [f32four] 1 1 1 4 (stem "s.roi") 2) :=
  claim_C1 [f32one] [f32four] 1 1 1 4 "s" 2 "s.roi" (by decide) (by decide)
    (by decide) (by decide) (by decide) (by decide) (by decide) (by decide)
    (by decide)

/-- C2: the flat coordinate array of a shape ROI follows the claimed build
(leading 0.0, then y, x, 1.0 per pair, final emitted value dropped, trailing
4.0); its length is 3n+1; the SHAPE_ROI_SIZE field of the encoded buffer
holds exactly that float count; and the concrete xCoords=[1,2,3],
yCoords=[4,5,6] scenario produces the claimed ten floats. -/
theorem claim_C2 (xs ys : List F32) (t l b r : Int) (nm : String) (p : Int)
    (hEq : xs.length = ys.length) (hone : 1 ≤ xs.length)
    (hbig : xs.length ≤ 100000000) (ht : i16ok t) (hl : i16ok l)
    (hb : i16ok b) (hr : i16ok r) (hp : i32ok p)
    (hn : nm.length ≤ 2147483647) :
    (get_shapeArray xs ys = claimShapeArray xs ys ∧
     (get_shapeArray xs ys).length = 3 * xs.length + 1 ∧
     unpackI 4 (readN (writeRoi (.shape xs ys t l b r nm p)).1 36 4) =
       ((get_shapeArray xs ys).length : Int)) ∧
    (get_shapeArray [f32one, f32two, f32three] [f32four, f32five, f32six] =
       [f32zero, f32four, f32one, f32one, f32five, f32two, f32one, f32six,
        f32three, f32four] ∧
     F32.toVal f32zero = 0 ∧ F32.toVal f32one = 1 ∧ F32.toVal f32two = 2 ∧
     F32.toVal f32three = 3 ∧ F32.toVal f32four = 4 ∧ F32.toVal f32five = 5 ∧
     F32.toVal f32six = 6) := by
  obtain ⟨ht1, ht2⟩ := ht
  obtain ⟨hl1, hl2⟩ := hl
  obtain ⟨hb1, hb2⟩ := hb
  obtain ⟨hr1, hr2⟩ := hr
  obtain ⟨hp1, hp2⟩ := hp
  have harr : (get_shapeArray xs ys).length = 3 * xs.length + 1 :=
    length_get_shapeArray xs ys hEq hone
  refine ⟨⟨get_shapeArray_eq_claim xs ys, harr, ?_⟩, by decide, toVal_f32zero,
    toVal_f32one, toVal_f32two, toVal_f32three, toVal_f32four, toVal_f32five,
    toVal_f32six⟩
  rw [writeRoi_shape_eq xs ys t l b r nm p hEq hone hbig ht1 ht2 hl1 hl2
    hb1 hb2 hr1 hr2 hp1 hp2 hn]
  rw [readN_shapeBuf_size36]
  exact unpackI_i32Bytes _ (by omega) (by omega)

/-- C2 witness: the concrete three-pair shape at encodable bounds. -/
theorem claim_C2_witness :
    get_shapeArray [f32one, f32two, f32three] [f32four, f32five, f32six] =
      claimShapeArray [f32one, f32two, f32three] [f32four, f32five, f32six] ∧
    (get_shapeArray [f32one, f32two, f32three]
      [f32four, f32five, f32six]).length = 3 * 3 + 1 :=
  ⟨((claim_C2 [f32one, f32two, f32three] [f32four, f32five, f32six] 1 1 3 6
      "s" 0 (by decide) (by decide) (by decide) (by decide) (by decide)
      (by decide) (by decide) (by decide) (by decide)).1).1,
   ((claim_C2 [f32one, f32two, f32three] [f32four, f32five, f32six] 1 1 3 6
      "s" 0 (by decide) (by decide) (by decide) (by decide) (by decide)
      (by decide) (by decide) (by decide) (by decide)).1).2.1⟩

/-- C3: for every rectangle with top <= bottom and left <= right, bounds in
int16 range, position in int32 range and a clean name, decoding the encoded
bytes with the decoder's name taken from the stem of `<name>.roi` yields
identical top, left, bottom, right, position, and name. -/
theorem claim_C3 (t l b r arc : Int) (nm : String) (p : Int)
    (htb : t ≤ b) (hlr : l ≤ r) (ht : i16ok t) (hl : i16ok l) (hb : i16ok b)
    (hr : i16ok r) (hp : i32ok p) (hg : goodName nm) :
    (writeRoi (.rect t l b r arc nm p)).2 = none ∧
    read (writeRoi (.rect t l b r arc nm p)).1.toBytes (nm ++ ".roi") =
      .ok (.rect t l b r 0 nm p) := by
  obtain ⟨ht1, ht2⟩ := ht
  obtain ⟨hl1, hl2⟩ := hl
  obtain ⟨hb1, hb2⟩ := hb
  obtain ⟨hr1, hr2⟩ := hr
  obtain ⟨hp1, hp2⟩ := hp
  obtain ⟨hne, hsl, hdot, hln⟩ := hg
  rw [writeRoi_rect_eq t l b r arc nm p ht1 ht2 hl1 hl2 hb1 hb2 hr1 hr2
    hp1 hp2 hln]
  refine ⟨rfl, ?_⟩
  rw [read_rectBuf t l b r nm p _ ht1 ht2 hl1 hl2 hb1 hb2 hr1 hr2 hp1 hp2 hln,
    stem_fileName nm hsl hdot]

/-- C3 witness: the spec's concrete rectangle, with the byte-6 type tag and
the derived width and height of the decoded rectangle checked as well. -/
theorem claim_C3_witness :
    ((writeRoi (.rect 10 5 50 40 0 "roi-0001-0000" 1)).2 = none ∧
     read (writeRoi (.rect 10 5 50 40 0 "roi-0001-0000" 1)).1.toBytes
       ("roi-0001-0000" ++ ".roi") = .ok (.rect 10 5 50 40 0 "roi-0001-0000" 1)) ∧
    (writeRoi (.rect 10 5 50 40 0 "roi-0001-0000" 1)).1.data 6 = 1 ∧
    ROI.width (.rect 10 5 50 40 0 "roi-0001-0000" 1) = 35 ∧
    ROI.height (.rect 10 5 50 40 0 "roi-0001-0000" 1) = 40 :=
  ⟨claim_C3 10 5 50 40 0 "roi-0001-0000" 1 (by decide) (by decide)
    (by decide) (by decide) (by decide) (by decide) (by decide) (by decide),
   by decide, by decide, by decide⟩

/-- C10: the encoder never writes the ROUNDED_RECT_ARC_SIZE field — bytes
54-55 of the encoded rectangle stay zero for every corner-arc value — so
decoding the encoded rectangle always yields arc = 0, and a nonzero arc is
not preserved by the round trip. -/
theorem claim_C10 (t l b r arc : Int) (nm : String) (p : Int)
    (ht : i16ok t) (hl : i16ok l) (hb : i16ok b) (hr : i16ok r) (hp : i32ok p)
    (hg : goodName nm) :
    readN (writeRoi (.rect t l b r arc nm p)).1 54 2 = [0, 0] ∧
    read (writeRoi (.rect t l b r arc nm p)).1.toBytes (nm ++ ".roi") =
      .ok (.rect t l b r 0 nm p) := by
  obtain ⟨ht1, ht2⟩ := ht
  obtain ⟨hl1, hl2⟩ := hl
  obtain ⟨hb1, hb2⟩ := hb
  obtain ⟨hr1, hr2⟩ := hr
  obtain ⟨hp1, hp2⟩ := hp
  obtain ⟨hne, hsl, hdot, hln⟩ := hg
  rw [writeRoi_rect_eq t l b r arc nm p ht1 ht2 hl1 hl2 hb1 hb2 hr1 hr2
    hp1 hp2 hln]
  refine ⟨by rw [readN_rectBuf_54]; rfl, ?_⟩
  rw [read_rectBuf t l b r nm p _ ht1 ht2 hl1 hl2 hb1 hb2 hr1 hr2 hp1 hp2 hln,
    stem_fileName nm hsl hdot]

/-- C10 witness: a rounded rectangle with arc 7 comes back with arc 0. -/
theorem claim_C10_witness :
    readN (writeRoi (.rect 10 5 50 40 7 "n" 1)).1 54 2 = [0, 0] ∧
    read (writeRoi (.rect 10 5 50 40 7 "n" 1)).1.toBytes ("n" ++ ".roi") =
      .ok (.rect 10 5 50 40 0 "n" 1) :=
  claim_C10 10 5 50 40 7 "n" 1 (by decide) (by decide) (by decide)
    (by decide) (by decide) (by decide)

/-- C4: decoding fails with the magic-mismatch error exactly on buffers that
have at least four bytes whose first four differ from the ASCII constant
`Iout`; with matching magic the header reader performs no other integrity
check, so the magic-mismatch error can never arise later (a buffer shorter
than four bytes fails earlier, with a short-read error). -/
theorem claim_C4 (data : List Nat) (path : String) :
    read data path = .error .formatError ↔
      4 ≤ data.length ∧ data.take 4 ≠ magicBytes := by
  constructor
  · intro hr
    rcases lt_or_le data.length 4 with hl | hl
    · rw [read_struct_of_short data path hl] at hr
      exact absurd (Except.error.inj hr) (fun hc => ROIError.noConfusion hc)
    · refine ⟨hl, ?_⟩
      intro hmg
      exact read_ne_fmt data path hmg hr
  · rintro ⟨hl, hm⟩
    exact read_fmt_of_bad_magic data path hl hm

/-- C4 witness: a four-byte zero buffer is rejected with the magic-mismatch
error, and a buffer starting with the magic is never rejected with it. -/
theorem claim_C4_witness :
    read [0, 0, 0, 0] "x" = .error .formatError ∧
    ¬ (read [73, 111, 117, 116] "x" = .error .formatError) :=
  ⟨(claim_C4 [0, 0, 0, 0] "x").mpr (by decide),
   fun hc => ((claim_C4 [73, 111, 117, 116] "x").mp hc).2 (by decide)⟩

/-- C5: for every buffer whose header reads back successfully with a
positive SHAPE_ROI_SIZE, decoding takes the composite/shape branch no matter
what the stored type tag is, and it fails with the invalid-composite error
exactly when the stored type tag is not the rectangle tag 1. -/
theorem claim_C5 (data : List Nat) (path : String) (h : Header)
    (hH : readHeader data = .ok h) (hS : 0 < h.SHAPE_ROI_SIZE) :
    read data path = readRoiShape data h (stem path) ∧
    (read data path = .error .invalidCompositeType ↔ h.TYPE ≠ 1) := by
  have hread : read data path = readRoiShape data h (stem path) := by
    simp only [read]
    rw [hH, bindOk, if_pos hS]
  refine ⟨hread, ?_⟩
  rw [hread]
  constructor
  · intro hr hty
    exact readRoiShape_tag1_ne data h (stem path) hty hr
  · intro hty
    unfold readRoiShape
    rw [if_pos hty]

/-- The C5 witness buffer: valid magic, SHAPE_ROI_SIZE = 1 at byte 36,
type tag 0 (polygon) at byte 6, header-2 offset 0, 64 bytes in total. -/
def c5data : List Nat :=
  [73, 111, 117, 116] ++ List.replicate 32 0 ++ [0, 0, 0, 1] ++
    List.replicate 24 0

/-- The header the decoder reads from `c5data`. -/
def c5hdr : Header :=
  { VERSION_OFFSET := 0, TYPE := 0, SUBTYPE := 0, TOP := 0, LEFT := 0,
    BOTTOM := 0, RIGHT := 0, N_COORDINATES := 0, STROKE_WIDTH := 0,
    SHAPE_ROI_SIZE := 1, STROKE_COLOR := 0, FILL_COLOR := 0, OPTIONS := 0,
    POSITION := 0, HEADER2_OFFSET := 0, C_POSITION := 0, Z_POSITION := 0,
    T_POSITION := 0, NAME_OFFSET := 0, NAME_LENGTH := 0,
    OVERLAY_LABEL_COLOR := 0, OVERLAY_FONT_SIZE := 0, AVAILABLE_BYTE1 := 0,
    IMAGE_OPACITY := 0, IMAGE_SIZE := 0,
    FLOAT_STROKE_WIDTH := ⟨1, by norm_num⟩,
    ROI_PROPS_OFFSET := 0, ROI_PROPS_LENGTH := 0 }

/-- C5 witness: the composite buffer with a polygon tag is decoded through
the shape branch and rejected with the invalid-composite error. -/
theorem claim_C5_witness :
    readHeader c5data = .ok c5hdr ∧ 0 < c5hdr.SHAPE_ROI_SIZE ∧
    read c5data "x" = .error .invalidCompositeType :=
  ⟨by decide, by decide,
   ((claim_C5 c5data "x" c5hdr (by decide) (by decide)).2).mpr (by decide)⟩

/-- C6 counterexample: encoding an oval raises the unsupported-variant error
naming the kind, but partial bytes have already been written to the output:
the failed write leaves a 128-byte file whose first byte is the magic's
first byte 73, so the file is not left untouched. -/
theorem claim_C6_counterexample :
    (writeRoi (.unsupported .oval)).2 =
      some (.unsupportedVariant "oval") ∧
    (writeRoi (.unsupported .oval)).1.size = 128 ∧
    (writeRoi (.unsupported .oval)).1.data 0 = 73 := by
  refine ⟨?_, ?_, ?_⟩ <;> rfl

/-- C6 as amended: for every recognized-but-unimplemented kind, encoding
fails with the unsupported-variant error naming the kind, and the output
already holds the 128-byte zero pad with the magic and the version written
before the failure — the partial bytes are not removed. -/
theorem claim_C6 (k : UnsupKind) :
    writeRoi (.unsupported k) =
      ((Buf.zero128.write 0 magicBytes).write 4 (i16Bytes 225),
        some (.unsupportedVariant k.kindName)) := by
  unfold writeRoi wfail wput
  rw [packI16_ok 225 (by norm_num) (by norm_num)]

/-- The two rectangles of the C7 duplicate-name scenario. -/
def c7roiA : ROI := .rect 1 2 3 4 0 "a" 0

/-- The second rectangle of the C7 scenario, same name as the first. -/
def c7roiB : ROI := .rect 5 6 7 8 0 "a" 0

/-- Writing two ROIs that share one name: the archive write raises nothing
and produces two entries under the same path, each holding its own ROI's
bytes; reading the archive back resolves that name through the entry
dictionary, where the last duplicate wins, so the second ROI comes back for
both occurrences. -/
theorem write_zip_dup_pair (dir : String) (r1 r2 : ROI) (h1 : EncOk r1)
    (h2 : EncOk r2) (hnm : r1.name = r2.name) :
    (write_zip dir [r1, r2]).2 = none ∧
    (write_zip dir [r1, r2]).1.map Prod.fst =
      [dir ++ "//" ++ r1.name ++ ".roi", dir ++ "//" ++ r1.name ++ ".roi"] ∧
    read_zip (write_zip dir [r1, r2]).1 = .ok [rtNorm r2, rtNorm r2] := by
  have hA := read_writeRoi dir r1 h1
  have hB := read_writeRoi dir r2 h2
  have hentries : write_zip dir [r1, r2] =
      ([(dir ++ "//" ++ r1.name ++ ".roi", (writeRoi r1).1),
        (dir ++ "//" ++ r2.name ++ ".roi", (writeRoi r2).1)], none) := by
    rcases hw1 : writeRoi r1 with ⟨b1, e1⟩
    rcases hw2 : writeRoi r2 with ⟨b2, e2⟩
    have he1 : e1 = none := by rw [hw1] at hA; exact hA.1
    have he2 : e2 = none := by rw [hw2] at hB; exact hB.1
    subst he1
    subst he2
    simp only [write_zip, hw1, hw2]
  refine ⟨by rw [hentries], ?_, ?_⟩
  · rw [hentries]
    simp only [List.map_cons, List.map_nil]
    rw [hnm]
  · rw [hentries, hnm]
    have hlook : zipLookup
        [(dir ++ "//" ++ r2.name ++ ".roi", (writeRoi r1).1),
         (dir ++ "//" ++ r2.name ++ ".roi", (writeRoi r2).1)]
        (dir ++ "//" ++ r2.name ++ ".roi") = some (writeRoi r2).1 := by
      unfold zipLookup
      simp only [List.foldl_cons, List.foldl_nil, if_pos rfl, if_true]
    unfold read_zip
    rw [List.mapM_cons, List.mapM_cons, List.mapM_nil]
    simp only [hlook]
    simp only [hB.2, bindOk, pureOk]

/-- C7 counterexample: writing two ROIs with identical names does not fail —
no DuplicateNameError exists anywhere in the writer — an archive with two
identically named entries is produced, and the program then reads the
second rectangle back twice (the entry dictionary's last duplicate wins):
nothing about the collision is rejected. -/
theorem claim_C7_counterexample :
    (write_zip "d" [c7roiA, c7roiB]).2 = none ∧
    (write_zip "d" [c7roiA, c7roiB]).1.map Prod.fst =
      ["d//a.roi", "d//a.roi"] ∧
    read_zip (write_zip "d" [c7roiA, c7roiB]).1 =
      .ok [c7roiB, c7roiB] := by
  obtain ⟨ha, hb, hc⟩ :=
    write_zip_dup_pair "d" c7roiA c7roiB (by decide) (by decide) rfl
  refine ⟨ha, ?_, ?_⟩
  · rw [hb]
    rfl
  · rw [hc]
    rfl

/-- C7 as amended: for any two encodable ROIs that share one clean name, the
archive write succeeds with no error and produces two entries under the same
entry path — duplicate names are not rejected and no DuplicateNameError
exists; reading the archive back resolves each occurrence of the name to
the last entry carrying it, so the second ROI is returned twice. -/
theorem claim_C7 (dir : String) (r1 r2 : ROI) (h1 : EncOk r1) (h2 : EncOk r2)
    (hnm : r1.name = r2.name) :
    (write_zip dir [r1, r2]).2 = none ∧
    (write_zip dir [r1, r2]).1.map Prod.fst =
      [dir ++ "//" ++ r1.name ++ ".roi", dir ++ "//" ++ r1.name ++ ".roi"] ∧
    read_zip (write_zip dir [r1, r2]).1 = .ok [rtNorm r2, rtNorm r2] :=
  write_zip_dup_pair dir r1 r2 h1 h2 hnm

/-- C7 witness for the amended statement, at two concrete rectangles with
distinct bounds, showing the second one returned twice. -/
theorem claim_C7_witness :
    (write_zip "d" [.rect 1 2 3 4 0 "a" 0, .rect 5 6 7 8 9 "a" 0]).2 = none ∧
    (write_zip "d" [.rect 1 2 3 4 0 "a" 0, .rect 5 6 7 8 9 "a" 0]).1.map
      Prod.fst = ["d" ++ "//" ++ "a" ++ ".roi", "d" ++ "//" ++ "a" ++ ".roi"] ∧
    read_zip (write_zip "d" [.rect 1 2 3 4 0 "a" 0,
      .rect 5 6 7 8 9 "a" 0]).1 =
      .ok [rtNorm (.rect 5 6 7 8 9 "a" 0), rtNorm (.rect 5 6 7 8 9 "a" 0)] :=
  claim_C7 "d" (.rect 1 2 3 4 0 "a" 0) (.rect 5 6 7 8 9 "a" 0) (by decide)
    (by decide) rfl

/-- C8: writing any sequence of encodable ROIs with pairwise distinct names
to an archive and reading it back yields exactly as many ROIs, in the same
entry order, each matching its original in kind, bounds, position,
coordinates and name (only a rectangle's corner arc is reset to 0, and the
name is reassigned from the entry filename stem, which reproduces it). -/
theorem claim_C8 (dir : String) (rois : List ROI)
    (hok : ∀ r ∈ rois, EncOk r)
    (hdist : rois.Pairwise (fun a b => a.name ≠ b.name)) :
    (write_zip dir rois).2 = none ∧
    read_zip (write_zip dir rois).1 = .ok (rois.map rtNorm) ∧
    (rois.map rtNorm).length = rois.length ∧
    ∀ r : ROI, (rtNorm r).kind = r.kind ∧ (rtNorm r).bounds = r.bounds ∧
      (rtNorm r).pos = r.pos ∧ (rtNorm r).coords = r.coords ∧
      (rtNorm r).name = r.name := by
  refine ⟨write_zip_snd dir rois hok, read_write_zip dir rois hok hdist,
    by simp, ?_⟩
  intro r
  cases r <;> exact ⟨rfl, rfl, rfl, rfl, rfl⟩

/-- C8 witness: a two-entry archive, one rectangle and one shape, with
distinct names, round trips in order. -/
theorem claim_C8_witness :
    (write_zip "d" [.rect 1 2 3 4 5 "a" 0,
      .shape [f32one] [f32four] 1 1 1 4 "b" 0]).2 = none ∧
    read_zip (write_zip "d" [.rect 1 2 3 4 5 "a" 0,
      .shape [f32one] [f32four] 1 1 1 4 "b" 0]).1 =
      .ok [rtNorm (.rect 1 2 3 4 5 "a" 0),
        rtNorm (.shape [f32one] [f32four] 1 1 1 4 "b" 0)] :=
  ⟨(claim_C8 "d" [.rect 1 2 3 4 5 "a" 0,
      .shape [f32one] [f32four] 1 1 1 4 "b" 0]
      (by intro r hr; fin_cases hr <;> decide)
      (by simp [List.pairwise_cons]; decide)).1,
   (claim_C8 "d" [.rect 1 2 3 4 5 "a" 0,
      .shape [f32one] [f32four] 1 1 1 4 "b" 0]
      (by intro r hr; fin_cases hr <;> decide)
      (by simp [List.pairwise_cons]; decide)).2.1⟩

/-- C9: for every shape ROI constructed without explicit bounds, the derived
bounding box is top = min(xCoords), left = min(xCoords),
bottom = max(xCoords), right = max(yCoords) — the asymmetric derivation of
the source is reproduced, not silently corrected: on xCoords = [1.0],
yCoords = [4.0] the box is (1, 1, 1, 4), with bottom from xCoords and right
from yCoords. -/
theorem claim_C9 :
    (∀ xs ys : List F32, xs ≠ [] → ys ≠ [] →
      shapeInitBounds xs ys none none none none = claimDerivedBox xs ys) ∧
    shapeInitBounds [f32one] [f32four] none none none none =
      (f32one, f32one, f32one, f32four) ∧
    F32.toVal f32one = 1 ∧ F32.toVal f32four = 4 ∧
    (shapeInitBounds [f32one] [f32four] none none none none).2.2.1 ≠
      (shapeInitBounds [f32one] [f32four] none none none none).2.2.2 :=
  ⟨fun _ _ _ _ => rfl, rfl, toVal_f32one, toVal_f32four, by decide⟩

/-- C9 witness: the general derivation equation applied at one-element
coordinate lists. -/
theorem claim_C9_witness :
    shapeInitBounds [f32one, f32two] [f32four] none none none none =
      claimDerivedBox [f32one, f32two] [f32four] :=
  claim_C9.1 [f32one, f32two] [f32four] (by decide) (by decide)

end Myconos
